import Mathlib

/-!
# Verification development for the Stan Math excerpts

Shallow embedding of

* `stan/math/rev/fun/fmin.hpp` (the three reverse-mode overloads of `fmin`),
* `stan/math/prim/prob/wiener5_lpdf.hpp` (`assign_err`, `estimate_with_err_check`,
  `wiener5_lpdf`, and the closed-form terms `wiener5_compute_error_term`,
  `wiener5_density_part_one`, `wiener5_grad_v`, `wiener5_grad_sv`),
* `stan/math/prim/fun/grad_pFq.hpp` (`binarysign`, `grad_pFq`),
* `stan/math/prim/fun/one_hot_vector.hpp` (`one_hot_vector`),

together with a model of the reverse-mode tape they act on, and of the accessor
`get_base1_lhs` and the validation of `identity_matrix`, whose headers are not among the
sources and which are known from their unit tests.

Doubles are modelled by the type `Dbl`: NaN, the two infinities, the negative zero and
one finite value per rational number (a superset of the finite doubles).  The operations
that are exact in IEEE-754 (`is_nan`, `is_inf`, the comparisons, `fabs`, unary minus) are
functions on `Dbl`.  The operations that round (`+`, `-`, `*`) are fields of a `FloatOps`
record and `log` is a parameter of the functions that call it, so that every theorem
quantified over them holds whatever the rounding is.
-/

namespace StanMath

/-! ## Doubles -/

/-- An IEEE-754 double: NaN, `inf false` = +∞, `inf true` = -∞, `negZero` = -0.0 and
`fin q` for the finite value `q` (`fin 0` is +0.0). -/
inductive Dbl where
  | nan
  | inf (neg : Bool)
  | negZero
  | fin (q : ℚ)
  deriving DecidableEq

namespace Dbl

/-- The constant `NOT_A_NUMBER`. -/
def NOT_A_NUMBER : Dbl := nan

/-- The constant `NEGATIVE_INFTY`. -/
def NEGATIVE_INFTY : Dbl := inf true

/-- Position of a double on the extended rational line; `none` for NaN.  Both zeros sit at
`0`. -/
def ext : Dbl → Option (WithBot (WithTop ℚ))
  | nan => none
  | inf true => some ⊥
  | inf false => some ((⊤ : WithTop ℚ) : WithBot (WithTop ℚ))
  | negZero => some (((0 : ℚ) : WithTop ℚ) : WithBot (WithTop ℚ))
  | fin q => some ((q : WithTop ℚ) : WithBot (WithTop ℚ))

/-- The test `std::isnan`. -/
def is_nan : Dbl → Bool
  | nan => true
  | _ => false

/-- The test `std::isinf`. -/
def is_inf : Dbl → Bool
  | inf _ => true
  | _ => false

/-- The test `std::isfinite`. -/
def is_finite : Dbl → Bool
  | negZero => true
  | fin _ => true
  | _ => false

/-- The comparison `x < y` of doubles: false as soon as one side is NaN. -/
def lt (x y : Dbl) : Bool :=
  match x.ext, y.ext with
  | some u, some v => decide (u < v)
  | _, _ => false

/-- The comparison `x <= y` of doubles: false as soon as one side is NaN. -/
def le (x y : Dbl) : Bool :=
  match x.ext, y.ext with
  | some u, some v => decide (u ≤ v)
  | _, _ => false

/-- The comparison `x > y` of doubles. -/
def gt (x y : Dbl) : Bool := lt y x

/-- The comparison `x >= y` of doubles. -/
def ge (x y : Dbl) : Bool := le y x

/-- The comparison `x == y` of doubles: false as soon as one side is NaN, true on the two
zeros. -/
def beq (x y : Dbl) : Bool :=
  match x.ext, y.ext with
  | some u, some v => decide (u = v)
  | _, _ => false

/-- Two doubles carry the same value: both are NaN, or they compare equal with `==`. -/
def sameValue (x y : Dbl) : Bool := (x.is_nan && y.is_nan) || beq x y

/-- The sign bit of a double that is not NaN. -/
def signBit : Dbl → Bool
  | nan => false
  | inf s => s
  | negZero => true
  | fin q => decide (q < 0)

/-- The function `fabs`: clears the sign bit (exact). -/
def fabs : Dbl → Dbl
  | nan => nan
  | inf _ => inf false
  | negZero => fin 0
  | fin q => fin |q|

/-- Unary minus: flips the sign bit (exact). -/
def neg : Dbl → Dbl
  | nan => nan
  | inf s => inf (!s)
  | negZero => fin 0
  | fin q => if q = 0 then negZero else fin (-q)

end Dbl

/-- The rounding operations on doubles used by the code, with the IEEE-754 rule that an
operation on a NaN operand returns NaN. -/
structure FloatOps where
  /-- Rounded addition. -/
  add : Dbl → Dbl → Dbl
  /-- Rounded subtraction. -/
  sub : Dbl → Dbl → Dbl
  /-- Rounded multiplication. -/
  mul : Dbl → Dbl → Dbl
  add_nan_left : ∀ x, add Dbl.nan x = Dbl.nan
  add_nan_right : ∀ x, add x Dbl.nan = Dbl.nan
  mul_nan_left : ∀ x, mul Dbl.nan x = Dbl.nan
  mul_nan_right : ∀ x, mul x Dbl.nan = Dbl.nan

namespace Dbl

/-- Finite value of a double that is neither NaN nor infinite. -/
def toRat : Dbl → ℚ
  | fin q => q
  | _ => 0

/-- A zero of the given sign. -/
def zero (neg : Bool) : Dbl := if neg then negZero else fin 0

/-- Addition without rounding, with the IEEE-754 rules for NaN, infinities and the sign
of a zero sum (round to nearest). -/
def addExact (x y : Dbl) : Dbl :=
  match x, y with
  | nan, _ => nan
  | _, nan => nan
  | inf s, inf t => if s = t then inf s else nan
  | inf s, _ => inf s
  | _, inf t => inf t
  | negZero, negZero => negZero
  | a, b => fin (a.toRat + b.toRat)

/-- Multiplication without rounding, with the IEEE-754 rules for NaN, infinities and the
sign of a zero product. -/
def mulExact (x y : Dbl) : Dbl :=
  match x, y with
  | nan, _ => nan
  | _, nan => nan
  | inf s, inf t => inf (xor s t)
  | inf s, b => if b.toRat = 0 then nan else inf (xor s b.signBit)
  | a, inf t => if a.toRat = 0 then nan else inf (xor a.signBit t)
  | a, b =>
    if a.toRat * b.toRat = 0 then zero (xor a.signBit b.signBit)
    else fin (a.toRat * b.toRat)

end Dbl

/-- The arithmetic without rounding. -/
def exactOps : FloatOps where
  add := Dbl.addExact
  sub := fun x y => Dbl.addExact x (Dbl.neg y)
  mul := Dbl.mulExact
  add_nan_left := by intro x; cases x <;> rfl
  add_nan_right := by intro x; cases x <;> rfl
  mul_nan_left := by intro x; cases x <;> rfl
  mul_nan_right := by intro x; cases x <;> rfl

/-! ## The reverse-mode tape -/

/-- Adjoint storage: the `adj_` member of the node with a given position on the tape. -/
abbrev Adjoints := Nat → Dbl

/-- Modelled from the spec: the node variants of `stan/math/rev/core` (absent from the
sources at hand) and what their `chain()` does.  A leaf `vari` has no operands;
`precomp_vv_vari` is the binary node with two operand references `avi_`, `bvi_` and two
precomputed partials `da_`, `db_`; the node built by `make_callback_var` runs a stored
functor on the reverse pass; the N-ary node emitted by the operands-and-partials
aggregator holds a list of (operand, partial) edges. -/
inductive Chain where
  | leaf
  | precomp_vv (avi bvi : Nat) (da db : Dbl)
  | callback (f : Adjoints → Adjoints)
  | nary (edges : List (Nat × Dbl))

/-- Modelled from the spec: a computation-graph node `vari`, its value `val_` and its
`chain()` variant.  The mutable adjoint `adj_` lives in `ChainableStack.adj`. -/
structure Vari where
  val : Dbl
  chain : Chain

/-- A reverse-mode variable `var`: a handle `vi_` on a node, here the node's position on
the tape.  Copies of a `var` alias the same node. -/
structure var where
  vi_ : Nat
  deriving DecidableEq

/-- Modelled from the spec: the tape, the nodes `var_stack_` in creation order and the
adjoint of each. -/
structure ChainableStack where
  var_stack_ : List Vari
  adj : Adjoints

namespace ChainableStack

/-- Number of nodes on the tape. -/
def size (s : ChainableStack) : Nat := s.var_stack_.length

/-- The node a handle refers to. -/
def node (s : ChainableStack) (a : var) : Option Vari := s.var_stack_[a.vi_]?

/-- The value `a.val()` of a variable (NaN when the handle refers to no node). -/
def val (s : ChainableStack) (a : var) : Dbl :=
  match s.node a with
  | some v => v.val
  | none => Dbl.nan

/-- The adjoint `a.adj()` of a variable. -/
def adjOf (s : ChainableStack) (a : var) : Dbl := s.adj a.vi_

/-- Modelled from the spec: allocation of a node (`new ..._vari(...)`): it is appended to
the tape with adjoint 0 and the handle on it is returned. -/
def new_vari (s : ChainableStack) (v : Vari) : ChainableStack × var :=
  (⟨s.var_stack_ ++ [v], Function.update s.adj s.size (Dbl.fin 0)⟩, ⟨s.size⟩)

/-- The constructor `var(double)`: a fresh leaf node. -/
def var_double (s : ChainableStack) (x : Dbl) : ChainableStack × var :=
  s.new_vari ⟨x, Chain.leaf⟩

/-- Modelled from the spec: `make_callback_var(value, functor)`, a fresh node with the
given value whose `chain()` runs the functor. -/
def make_callback_var (s : ChainableStack) (value : Dbl) (functor : Adjoints → Adjoints) :
    ChainableStack × var :=
  s.new_vari ⟨value, Chain.callback functor⟩

/-- Assignment `a.adj() = g`. -/
def set_adj (s : ChainableStack) (a : var) (g : Dbl) : ChainableStack :=
  ⟨s.var_stack_, Function.update s.adj a.vi_ g⟩

end ChainableStack

/-- Modelled from the spec: the `chain()` of a node variant, run for the node at position
`self`.  Leaf: nothing.  Binary: `avi_->adj_ += adj_ * da_; bvi_->adj_ += adj_ * db_`.
Callback: the stored functor.  N-ary: `operand.adj_ += adj_ * partial` for each edge in
turn. -/
def Chain.run (ops : FloatOps) (self : Nat) (adj : Adjoints) : Chain → Adjoints
  | Chain.leaf => adj
  | Chain.precomp_vv avi bvi da db =>
    let adj1 := Function.update adj avi (ops.add (adj avi) (ops.mul (adj self) da))
    Function.update adj1 bvi (ops.add (adj1 bvi) (ops.mul (adj1 self) db))
  | Chain.callback f => f adj
  | Chain.nary edges =>
    edges.foldl
      (fun acc e => Function.update acc e.1 (ops.add (acc e.1) (ops.mul (acc self) e.2))) adj

/-- The call `chain()` on the node a handle refers to. -/
def chain (ops : FloatOps) (s : ChainableStack) (r : var) : ChainableStack :=
  match s.node r with
  | some v => ⟨s.var_stack_, v.chain.run ops r.vi_ s.adj⟩
  | none => s

/-- Reverse pass over the first `n` nodes of the tape, most recently created first. -/
def sweep (ops : FloatOps) : Nat → ChainableStack → ChainableStack
  | 0, s => s
  | n + 1, s => sweep ops n (chain ops s ⟨n⟩)

/-- Modelled from the spec: `grad(vi)`, which sets the adjoint of the root to 1 and calls
`chain()` once on every node of the tape, from the most recently created to the
earliest. -/
def grad (ops : FloatOps) (s : ChainableStack) (root : var) : ChainableStack :=
  sweep ops s.size (s.set_adj root (Dbl.fin 1))

/-! ## `fmin` (stan/math/rev/fun/fmin.hpp) -/

/-- The overload `fmin(const var& a, const var& b)`. -/
def fmin_vv (s : ChainableStack) (a b : var) : ChainableStack × var :=
  if (s.val a).is_nan then
    if (s.val b).is_nan then
      s.new_vari ⟨Dbl.NOT_A_NUMBER,
        Chain.precomp_vv a.vi_ b.vi_ Dbl.NOT_A_NUMBER Dbl.NOT_A_NUMBER⟩
    else (s, b)
  else if (s.val b).is_nan then (s, a)
  else if (s.val a).lt (s.val b) then (s, a) else (s, b)

/-- The overload `fmin(const var& a, double b)`. -/
def fmin_vd (s : ChainableStack) (a : var) (b : Dbl) : ChainableStack × var :=
  if (s.val a).is_nan then
    if b.is_nan then
      s.make_callback_var Dbl.NOT_A_NUMBER
        (fun adj => Function.update adj a.vi_ Dbl.NOT_A_NUMBER)
    else s.var_double b
  else if b.is_nan then (s, a)
  else if (s.val a).le b then (s, a) else s.var_double b

/-- The overload `fmin(double a, const var& b)`. -/
def fmin_dv (s : ChainableStack) (a : Dbl) (b : var) : ChainableStack × var :=
  if (s.val b).is_nan then
    if a.is_nan then
      s.make_callback_var Dbl.NOT_A_NUMBER
        (fun adj => Function.update adj b.vi_ Dbl.NOT_A_NUMBER)
    else s.var_double a
  else if a.is_nan then (s, b)
  else if (s.val b).le a then (s, b) else s.var_double a

/-- Value of the variable an `fmin` overload returns. -/
def resultVal (r : ChainableStack × var) : Dbl := r.1.val r.2

/-- The value table of the `fmin` documentation: NaN when both arguments are NaN, the
other argument when exactly one is NaN, otherwise `x` when `x <= y` and `y` when
`x > y`. -/
def fminTable (x y : Dbl) : Dbl :=
  if x.is_nan then (if y.is_nan then Dbl.nan else y)
  else if y.is_nan then x
  else if x.le y then x else y

/-- The tape of two independent variables, both of value 1.0, all adjoints 0. -/
def tieTape : ChainableStack :=
  ⟨[⟨Dbl.fin 1, Chain.leaf⟩, ⟨Dbl.fin 1, Chain.leaf⟩], fun _ => Dbl.fin 0⟩

/-! ## `wiener5_lpdf` (stan/math/prim/prob/wiener5_lpdf.hpp) -/

/-- The library functions and constants of `stan/math/prim/fun` the file calls: `log` and
the constant `LOG_TWO`. -/
structure LibM where
  log : Dbl → Dbl
  LOG_TWO : Dbl

/-- One element of the argument pack of `estimate_with_err_check`: a scalar, or a tuple
of scalars (the case the template parameter `NestedIndex` is for). -/
inductive ErrArg where
  | scalar (x : Dbl)
  | tuple (xs : List Dbl)
  deriving DecidableEq

/-- The two overloads of `assign_err<NestedIndex>(arg, err)`, as the value of the caller's
object after the call.  The first overload, `assign_err(Scalar arg, Scalar err)`, takes
`arg` by value: `arg = err` assigns its local copy and the caller's scalar keeps its
value.  The second, `assign_err(std::tuple<TArgs...>& args_tuple, Scalar err)`, takes
the tuple by reference and overwrites its element `NestedIndex`. -/
def assign_err (NestedIndex : Nat) (arg : ErrArg) (err : Dbl) : ErrArg :=
  match arg with
  | ErrArg.scalar x => ErrArg.scalar x
  | ErrArg.tuple xs => ErrArg.tuple (xs.set NestedIndex err)

/-- The value `new_error` of `estimate_with_err_check`, from `err` and the
`log_fabs_result` that failed the check: an infinite `log_fabs_result` is first replaced
by 0, then `err + log_fabs_result`, plus `LOG_TWO` when `GradW7` is set. -/
def new_error (ops : FloatOps) (m : LibM) (GradW7 : Bool) (err log_fabs_result : Dbl) :
    Dbl :=
  let log_fabs_result := if log_fabs_result.is_inf then Dbl.fin 0 else log_fabs_result
  if GradW7 then ops.add (ops.add err log_fabs_result) m.LOG_TWO
  else ops.add err log_fabs_result

/-- The quantity `log_fabs_result` of `estimate_with_err_check`. -/
def log_fabs (m : LibM) (LogResult : Bool) (result : Dbl) : Dbl :=
  if LogResult then m.log result.fabs else result.fabs

/-- The function template
`estimate_with_err_check<ErrIndex, Scalar, GradW7, NestedIndex, LogResult>(functor, err,
args_tuple...)`. -/
def estimate_with_err_check (ops : FloatOps) (m : LibM) (ErrIndex : Nat) (GradW7 : Bool)
    (NestedIndex : Nat) (LogResult : Bool) (functor : List ErrArg → Dbl) (err : Dbl)
    (args_tuple : List ErrArg) : Dbl :=
  let result := functor args_tuple
  let log_fabs_result := log_fabs m LogResult result
  if log_fabs_result.lt err then
    let err_args_tuple := args_tuple
    let new_error := new_error ops m GradW7 err log_fabs_result
    let err_args_tuple :=
      match err_args_tuple[ErrIndex]? with
      | some arg => err_args_tuple.set ErrIndex (assign_err NestedIndex arg new_error)
      | none => err_args_tuple
    functor err_args_tuple
  else result

/-- What the documentation of `estimate_with_err_check` and of `assign_err` describes
for a failed check: the functor on the arguments in which the error argument at
`ErrIndex` is replaced by `new_error`. -/
def reestimate_documented (ops : FloatOps) (m : LibM) (ErrIndex : Nat) (GradW7 : Bool)
    (LogResult : Bool) (functor : List ErrArg → Dbl) (err : Dbl)
    (args_tuple : List ErrArg) : Dbl :=
  functor (args_tuple.set ErrIndex
    (ErrArg.scalar (new_error ops m GradW7 err (log_fabs m LogResult (functor args_tuple)))))

/-- An argument of a vectorised function: a scalar, or a container of scalars. -/
inductive Seq (α : Type) where
  | scalar (x : α)
  | vec (xs : List α)

namespace Seq

/-- The function `stan::math::size`: 1 for a scalar. -/
def size {α : Type} : Seq α → Nat
  | scalar _ => 1
  | vec xs => xs.length

/-- Whether the argument is a container. -/
def is_vector {α : Type} : Seq α → Bool
  | scalar _ => false
  | vec _ => true

/-- The elements, in order. -/
def elems {α : Type} : Seq α → List α
  | scalar x => [x]
  | vec xs => xs

/-- The view `scalar_seq_view`: `operator[]` returns the scalar at every index, and the
element `i` of a container (`d` stands for an access past its end). -/
def get {α : Type} (d : α) : Seq α → Nat → α
  | scalar x, _ => x
  | vec xs, i => xs.getD i d

/-- Elementwise image. -/
def map {α β : Type} (f : α → β) : Seq α → Seq β
  | scalar x => scalar (f x)
  | vec xs => vec (xs.map f)

end Seq

/-- An argument of `wiener5_lpdf`: plain doubles (`is_constant` holds of its type) or
reverse-mode variables. -/
inductive Operand where
  | data (x : Seq Dbl)
  | vars (x : Seq var)

namespace Operand

/-- The trait `is_constant_all` of the argument's type. -/
def is_constant : Operand → Bool
  | data _ => true
  | vars _ => false

/-- The function `value_of`. -/
def value_of (s : ChainableStack) : Operand → Seq Dbl
  | data x => x
  | vars x => x.map s.val

/-- The function `stan::math::size`. -/
def size : Operand → Nat
  | data x => x.size
  | vars x => x.size

/-- Whether the argument is a container. -/
def is_vector : Operand → Bool
  | data x => x.is_vector
  | vars x => x.is_vector

/-- Positions on the tape of the nodes of a variable argument. -/
def nodes : Operand → List Nat
  | data _ => []
  | vars x => x.elems.map var.vi_

end Operand

/-- The exceptions the function can throw. -/
inductive Error where
  | invalid_argument
  | domain_error
  | out_of_range
  deriving DecidableEq

/-- The function `size_zero`: some argument has size 0. -/
def size_zero (xs : List Operand) : Bool := xs.any (fun x => x.size == 0)

/-- The function `max_size`. -/
def max_size (xs : List Operand) : Nat := (xs.map Operand.size).foldl max 0

/-- Modelled from the spec: the collaborator `check_consistent_sizes` of
`stan/math/prim/err` (absent from the sources at hand) passes when all the arguments
that are containers have the same size; scalars are not compared. -/
def check_consistent_sizes (xs : List Operand) : Bool :=
  let sizes := (xs.filter Operand.is_vector).map Operand.size
  sizes.all (fun n => n == sizes.headD 0)

/-- Modelled from the spec: `check_positive_finite` passes when every element `y` has
`y > 0` and is finite. -/
def check_positive_finite (x : Seq Dbl) : Bool :=
  x.elems.all (fun y => y.gt (Dbl.fin 0) && y.is_finite)

/-- Modelled from the spec: `check_nonnegative` passes when every element has `y >= 0`. -/
def check_nonnegative (x : Seq Dbl) : Bool := x.elems.all (fun y => y.ge (Dbl.fin 0))

/-- Modelled from the spec: `check_finite` passes when every element is finite. -/
def check_finite (x : Seq Dbl) : Bool := x.elems.all Dbl.is_finite

/-- Modelled from the spec: `check_less(y, high)` passes when every element has
`y < high`. -/
def check_less (x : Seq Dbl) (high : Dbl) : Bool := x.elems.all (fun y => y.lt high)

/-- Modelled from the spec: `check_greater(y, low)` passes when every element has
`y > low`. -/
def check_greater (x : Seq Dbl) (low : Dbl) : Bool := x.elems.all (fun y => y.gt low)

/-- Modelled from the spec: one edge of the operands-and-partials aggregator, the nodes
of a differentiable operand and one partial slot for each, initially 0.  For a scalar
operand the slots are a broadcast array: every index refers to its single slot.  A plain
operand has no slot. -/
structure Edge where
  operands : List Nat
  partials_ : List Dbl
  broadcast : Bool

/-- Modelled from the spec: the edge the aggregator's constructor makes for an operand. -/
def Edge.ofOperand (x : Operand) : Edge :=
  ⟨x.nodes, x.nodes.map (fun _ => Dbl.fin 0), !x.is_vector⟩

/-- The assignment `edge.partials_[i] = x`. -/
def Edge.assign (e : Edge) (i : Nat) (x : Dbl) : Edge :=
  ⟨e.operands, e.partials_.set (if e.broadcast then 0 else i) x, e.broadcast⟩

/-- What a call returns: a plain double when every argument is plain, a variable
otherwise (`return_type_t`). -/
inductive Result where
  | plain (x : Dbl)
  | variable (r : var)

/-- The aggregator `operands_and_partials` of the six arguments. -/
structure OperandsAndPartials where
  edge1_ : Edge
  edge2_ : Edge
  edge3_ : Edge
  edge4_ : Edge
  edge5_ : Edge
  edge6_ : Edge
  all_constant : Bool

/-- Modelled from the spec: the constructor of the aggregator. -/
def OperandsAndPartials.make (y a t0 w v sv : Operand) : OperandsAndPartials :=
  ⟨Edge.ofOperand y, Edge.ofOperand a, Edge.ofOperand t0, Edge.ofOperand w,
    Edge.ofOperand v, Edge.ofOperand sv,
    [y, a, t0, w, v, sv].all Operand.is_constant⟩

/-- The assignment `ops_partials.edgeK_.partials_[i] = x`, for `K` from 1 to 6. -/
def OperandsAndPartials.assign (o : OperandsAndPartials) (K i : Nat) (x : Dbl) :
    OperandsAndPartials :=
  match K with
  | 1 => ⟨o.edge1_.assign i x, o.edge2_, o.edge3_, o.edge4_, o.edge5_, o.edge6_,
      o.all_constant⟩
  | 2 => ⟨o.edge1_, o.edge2_.assign i x, o.edge3_, o.edge4_, o.edge5_, o.edge6_,
      o.all_constant⟩
  | 3 => ⟨o.edge1_, o.edge2_, o.edge3_.assign i x, o.edge4_, o.edge5_, o.edge6_,
      o.all_constant⟩
  | 4 => ⟨o.edge1_, o.edge2_, o.edge3_, o.edge4_.assign i x, o.edge5_, o.edge6_,
      o.all_constant⟩
  | 5 => ⟨o.edge1_, o.edge2_, o.edge3_, o.edge4_, o.edge5_.assign i x, o.edge6_,
      o.all_constant⟩
  | 6 => ⟨o.edge1_, o.edge2_, o.edge3_, o.edge4_, o.edge5_, o.edge6_.assign i x,
      o.all_constant⟩
  | _ => o

/-- The (operand, partial) pairs of all the edges. -/
def OperandsAndPartials.edges (o : OperandsAndPartials) : List (Nat × Dbl) :=
  [o.edge1_, o.edge2_, o.edge3_, o.edge4_, o.edge5_, o.edge6_].flatMap
    (fun e => e.operands.zip e.partials_)

/-- Modelled from the spec: `build(value)` returns the plain value, the tape untouched,
when no operand is differentiable, and otherwise a new variable on one fresh N-ary node
with the collected edges. -/
def OperandsAndPartials.build (o : OperandsAndPartials) (s : ChainableStack)
    (value : Dbl) : ChainableStack × Result :=
  if o.all_constant then (s, Result.plain value)
  else
    let r := s.new_vari ⟨value, Chain.nary o.edges⟩
    (r.1, Result.variable r.2)

/-- How a call of `wiener5_lpdf` ends: it returns, leaving a tape, or it throws;
`ops_partials_constructed` records whether the aggregator existed at the throw. -/
inductive Outcome where
  | returned (s : ChainableStack) (r : Result)
  | threw (e : Error) (ops_partials_constructed : Bool)

/-- The density and gradient functions of `namespace internal` that `wiener5_lpdf` calls,
with `Scalar = double`; the first four take `(y, a, v_value, w_value, sv, err)`, the last
two `(y, a, v_value, w_value, sv)`. -/
structure Wiener5Fns where
  wiener5_density : Dbl → Dbl → Dbl → Dbl → Dbl → Dbl → Dbl
  wiener5_grad_t : Dbl → Dbl → Dbl → Dbl → Dbl → Dbl → Dbl
  wiener5_grad_a : Dbl → Dbl → Dbl → Dbl → Dbl → Dbl → Dbl
  wiener5_grad_w : Dbl → Dbl → Dbl → Dbl → Dbl → Dbl → Dbl
  wiener5_grad_v : Dbl → Dbl → Dbl → Dbl → Dbl → Dbl
  wiener5_grad_sv : Dbl → Dbl → Dbl → Dbl → Dbl → Dbl

/-- The lambdas `[&](auto&&... args) { return internal::f(args...); }`: a six-argument
function applied to a pack of six scalars. -/
def apply6 (f : Dbl → Dbl → Dbl → Dbl → Dbl → Dbl → Dbl) : List ErrArg → Dbl
  | [ErrArg.scalar y, ErrArg.scalar a, ErrArg.scalar v, ErrArg.scalar w, ErrArg.scalar sv,
      ErrArg.scalar err] => f y a v w sv err
  | _ => Dbl.nan

/-- The variables of the main loop of `wiener5_lpdf`. -/
structure LoopState where
  density : Dbl
  log_density : Dbl
  ops_partials : OperandsAndPartials

/-- One iteration `i` of the loop "calculate density and partials" of `wiener5_lpdf`. -/
def wiener5_lpdf_body (ops : FloatOps) (m : LibM) (fns : Wiener5Fns)
    (y a t0 w v sv : Operand) (y_vec a_vec t0_vec w_vec v_vec sv_vec : Seq Dbl)
    (log_error_density log_error_derivative log_error_absolute LOG_FOUR : Dbl)
    (st : LoopState) (i : Nat) : LoopState :=
  let y_val := y_vec.get Dbl.nan i
  let a_val := a_vec.get Dbl.nan i
  let t0_val := t0_vec.get Dbl.nan i
  let w_val := w_vec.get Dbl.nan i
  let v_val := v_vec.get Dbl.nan i
  let sv_val := sv_vec.get Dbl.nan i
  let args := [ErrArg.scalar (ops.sub y_val t0_val), ErrArg.scalar a_val,
    ErrArg.scalar v_val, ErrArg.scalar w_val, ErrArg.scalar sv_val,
    ErrArg.scalar log_error_absolute]
  let density := estimate_with_err_check ops m 5 false 0 false
    (apply6 fns.wiener5_density) (ops.sub log_error_density m.LOG_TWO) args
  let new_est_err := ops.sub (ops.add density log_error_derivative) LOG_FOUR
  let deriv_y := estimate_with_err_check ops m 5 false 0 true
    (apply6 fns.wiener5_grad_t) new_est_err args
  let o := st.ops_partials
  let o := if !y.is_constant then o.assign 1 i deriv_y else o
  let o := if !a.is_constant then
      o.assign 2 i
        (estimate_with_err_check ops m 5 false 0 true (apply6 fns.wiener5_grad_a)
          new_est_err args)
    else o
  let o := if !t0.is_constant then o.assign 3 i deriv_y.neg else o
  let o := if !w.is_constant then
      o.assign 4 i
        (estimate_with_err_check ops m 5 false 0 true (apply6 fns.wiener5_grad_w)
          new_est_err args)
    else o
  let o := if !v.is_constant then
      o.assign 5 i (fns.wiener5_grad_v (ops.sub y_val t0_val) a_val v_val w_val sv_val)
    else o
  let o := if !sv.is_constant then
      o.assign 6 i (fns.wiener5_grad_sv (ops.sub y_val t0_val) a_val v_val w_val sv_val)
    else o
  ⟨density, st.log_density, o⟩

/-- The statement `return 0;` of a function whose return type is `return_type_t` of the
arguments: the plain 0, or the variable `var(0)` when some argument is a variable. -/
def return_zero (s : ChainableStack) (xs : List Operand) : Outcome :=
  if xs.all Operand.is_constant then Outcome.returned s (Result.plain (Dbl.fin 0))
  else
    let r := s.var_double (Dbl.fin 0)
    Outcome.returned r.1 (Result.variable r.2)

/-- The function `wiener5_lpdf<propto>(y, a, t0, w, v, sv, precision_derivatives)`.  The
compile-time value `include_summand<propto, T_y, ..., T_sv>::value` is the parameter
`include_summand`. -/
def wiener5_lpdf (ops : FloatOps) (m : LibM) (fns : Wiener5Fns) (include_summand : Bool)
    (s : ChainableStack) (y a t0 w v sv : Operand) (precision_derivatives : Dbl) :
    Outcome :=
  if size_zero [y, a, t0, w, v, sv] then return_zero s [y, a, t0, w, v, sv]
  else if !include_summand then return_zero s [y, a, t0, w, v, sv]
  else if !check_consistent_sizes [y, a, v, w, t0, sv] then
    Outcome.threw Error.invalid_argument false
  else
    let y_ref := y.value_of s
    let a_ref := a.value_of s
    let t0_ref := t0.value_of s
    let w_ref := w.value_of s
    let v_ref := v.value_of s
    let sv_ref := sv.value_of s
    if !check_positive_finite y_ref then Outcome.threw Error.domain_error false
    else if !check_positive_finite a_ref then Outcome.threw Error.domain_error false
    else if !check_nonnegative t0_ref then Outcome.threw Error.domain_error false
    else if !check_finite t0_ref then Outcome.threw Error.domain_error false
    else if !check_less w_ref (Dbl.fin 1) then Outcome.threw Error.domain_error false
    else if !check_greater w_ref (Dbl.fin 0) then Outcome.threw Error.domain_error false
    else if !check_finite v_ref then Outcome.threw Error.domain_error false
    else if !check_nonnegative sv_ref then Outcome.threw Error.domain_error false
    else if !check_finite sv_ref then Outcome.threw Error.domain_error false
    else
      let N := max_size [y, a, t0, w, v, sv]
      let N_y_t0 := max_size [y, t0]
      if (List.range N_y_t0).any
          (fun i => (y_ref.get Dbl.nan i).le (t0_ref.get Dbl.nan i)) then
        Outcome.threw Error.domain_error false
      else
        let log_error_density := m.log (Dbl.fin (1 / 1000000))
        let log_error_derivative := m.log precision_derivatives
        let log_error_absolute := m.log (Dbl.fin (1 / 1000000000000))
        let density := Dbl.fin 0
        let log_density := Dbl.fin 0
        let ops_partials := OperandsAndPartials.make y a t0 w v sv
        let LOG_FOUR := ops.add m.LOG_TWO m.LOG_TWO
        let st := (List.range N).foldl
          (wiener5_lpdf_body ops m fns y a t0 w v sv y_ref a_ref t0_ref w_ref v_ref sv_ref
            log_error_density log_error_derivative log_error_absolute LOG_FOUR)
          ⟨density, log_density, ops_partials⟩
        let r := st.ops_partials.build s st.log_density
        Outcome.returned r.1 r.2

/-- Value of what a call returned. -/
def Outcome.value? : Outcome → Option Dbl
  | Outcome.returned _ (Result.plain x) => some x
  | Outcome.returned s (Result.variable r) => some (s.val r)
  | Outcome.threw _ _ => none

/-- The sum the documentation promises: the sum over the observations `i < N` of
`wiener5_density<NaturalScale = false>(y_i - t0_i, a_i, v_i, w_i, sv_i)`, the error
argument at its default `log(1e-12)`, accumulated from 0.0. -/
def log_density_documented (ops : FloatOps) (m : LibM) (fns : Wiener5Fns)
    (y a t0 w v sv : Seq Dbl) (N : Nat) : Dbl :=
  (List.range N).foldl
    (fun acc i => ops.add acc
      (fns.wiener5_density (ops.sub (y.get Dbl.nan i) (t0.get Dbl.nan i)) (a.get Dbl.nan i)
        (v.get Dbl.nan i) (w.get Dbl.nan i) (sv.get Dbl.nan i)
        (m.log (Dbl.fin (1 / 1000000000000)))))
    (Dbl.fin 0)

/-- The domain violations as the specification lists them, on the values of the
arguments: some `y` is not positive and finite, some `a` is not positive and finite, some
`t0` is negative or not finite, some `w` is not strictly between 0 and 1, some `v` is not
finite, some `sv` is negative or not finite, or `y_i <= t0_i` at some index `i` below
`N_y_t0`. -/
def domain_violation (y a t0 w v sv : Seq Dbl) (N_y_t0 : Nat) : Bool :=
  y.elems.any (fun x => !(x.gt (Dbl.fin 0) && x.is_finite)) ||
  a.elems.any (fun x => !(x.gt (Dbl.fin 0) && x.is_finite)) ||
  t0.elems.any (fun x => x.lt (Dbl.fin 0) || !x.is_finite) ||
  w.elems.any (fun x => !(x.gt (Dbl.fin 0) && x.lt (Dbl.fin 1))) ||
  v.elems.any (fun x => !x.is_finite) ||
  sv.elems.any (fun x => x.lt (Dbl.fin 0) || !x.is_finite) ||
  (List.range N_y_t0).any (fun i => (y.get Dbl.nan i).le (t0.get Dbl.nan i))

/-- A functor that returns its error argument, the scalar at position 5 of its pack. -/
def errorArgument (args : List ErrArg) : Dbl :=
  match args[5]? with
  | some (ErrArg.scalar e) => e
  | _ => Dbl.nan

/-- A pack of six scalars, all 1.0. -/
def sixOnes : List ErrArg :=
  [ErrArg.scalar (Dbl.fin 1), ErrArg.scalar (Dbl.fin 1), ErrArg.scalar (Dbl.fin 1),
    ErrArg.scalar (Dbl.fin 1), ErrArg.scalar (Dbl.fin 1), ErrArg.scalar (Dbl.fin 1)]

/-- A sample `LibM` on which the definitions can be run: `log` is exact at 0, 1 and +∞
and is NaN below 0, elsewhere it is the tangent bound `x - 1`; `LOG_TWO` is 0.6931.  The
theorems hold for every `LibM`. -/
def sampleLibM : LibM where
  log := fun x =>
    match x with
    | Dbl.nan => Dbl.nan
    | Dbl.inf true => Dbl.nan
    | Dbl.inf false => Dbl.inf false
    | Dbl.negZero => Dbl.inf true
    | Dbl.fin q => if q < 0 then Dbl.nan else if q = 0 then Dbl.inf true else Dbl.fin (q - 1)
  LOG_TWO := Dbl.fin (6931 / 10000)

/-- A sample family of density and gradient functions on which the definitions can be
run: all constant, the log density -1 and the gradients 0.  The theorems hold for every
family. -/
def sampleFns : Wiener5Fns where
  wiener5_density := fun _ _ _ _ _ _ => Dbl.fin (-1)
  wiener5_grad_t := fun _ _ _ _ _ _ => Dbl.fin 0
  wiener5_grad_a := fun _ _ _ _ _ _ => Dbl.fin 0
  wiener5_grad_w := fun _ _ _ _ _ _ => Dbl.fin 0
  wiener5_grad_v := fun _ _ _ _ _ => Dbl.fin 0
  wiener5_grad_sv := fun _ _ _ _ _ => Dbl.fin 0

/-- The empty tape. -/
def emptyTape : ChainableStack := ⟨[], fun _ => Dbl.fin 0⟩

/-! ## Definitions for the further claims on `wiener5_lpdf.hpp` -/

/-- The function template `estimate_with_err_check` with its evaluations of the functor
recorded: next to the result it returns the argument packs the functor was evaluated
on, in order. -/
def estimate_with_err_check_logged (ops : FloatOps) (m : LibM) (ErrIndex : Nat)
    (GradW7 : Bool) (NestedIndex : Nat) (LogResult : Bool) (functor : List ErrArg → Dbl)
    (err : Dbl) (args_tuple : List ErrArg) : Dbl × List (List ErrArg) :=
  let result := functor args_tuple
  let evaluations := [args_tuple]
  let log_fabs_result := log_fabs m LogResult result
  if log_fabs_result.lt err then
    let err_args_tuple := args_tuple
    let new_error := new_error ops m GradW7 err log_fabs_result
    let err_args_tuple :=
      match err_args_tuple[ErrIndex]? with
      | some arg => err_args_tuple.set ErrIndex (assign_err NestedIndex arg new_error)
      | none => err_args_tuple
    (functor err_args_tuple, evaluations ++ [err_args_tuple])
  else (result, evaluations)

/-- Number of nodes a call left on the tape beyond those of the tape `s` it started
from; a call that throws leaves the tape as it was. -/
def Outcome.nodes_added (s : ChainableStack) : Outcome → Nat
  | Outcome.returned s1 _ => s1.size - s.size
  | Outcome.threw _ _ => 0

/-- A call threw, or returned on the untouched tape, or returned on the tape extended by
one node. -/
def AtMostOneNode (s : ChainableStack) (o : Outcome) : Prop :=
  (∃ e b, o = Outcome.threw e b) ∨ (∃ r, o = Outcome.returned s r) ∨
    (∃ v r, o = Outcome.returned (s.new_vari v).1 r)

/-- A call threw, or returned a plain number on the untouched tape. -/
def PlainNoNode (s : ChainableStack) (o : Outcome) : Prop :=
  (∃ e b, o = Outcome.threw e b) ∨ (∃ x, o = Outcome.returned s (Result.plain x))

/-- The function `square`. -/
def square {K : Type} [Mul K] (x : K) : K := x * x

/-- The function `internal::wiener5_compute_error_term<Scalar>(y, a, v_value, w_value,
sv)`, over any field `K` of scalars with a `log`. -/
def wiener5_compute_error_term {K : Type} [Field K] [DecidableEq K] (log : K → K)
    (y a v_value w_value sv : K) : K :=
  let w := 1 - w_value
  let v := -v_value
  let sv_sqr := square sv
  let one_plus_svsqr_y := 1 + sv_sqr * y
  let two_avw := 2 * a * v * w
  let two_log_a := 2 * log a
  if sv ≠ 0 then
    (sv_sqr * square (a * w) - two_avw - square v * y) / 2 / one_plus_svsqr_y
      - two_log_a - 1 / 2 * log one_plus_svsqr_y
  else (-two_avw - square v * y) / 2 - two_log_a

/-- The function `internal::wiener5_density_part_one<GradA, GradT, Scalar>(y, a, v_value,
w_value, sv)`. -/
def wiener5_density_part_one {K : Type} [Field K] [DecidableEq K] (GradA GradT : Bool)
    (y a v_value w_value sv : K) : K :=
  let w := 1 - w_value
  let v := -v_value
  let sv_sqr := square sv
  let one_plus_svsqr_y := 1 + sv_sqr * y
  let two_avw := 2 * a * v * w
  let var_a := if GradA then w else a
  let var_b := if GradA then a else w
  if GradT then
    if sv ≠ 0 then
      -(1 / 2) * (square sv_sqr * (y + square (a * w)) + sv_sqr * (1 - two_avw) + square v)
        / square one_plus_svsqr_y
    else -(1 / 2) * square v
  else if sv ≠ 0 then (-v * var_a + sv_sqr * square var_a * var_b) / one_plus_svsqr_y
  else -v * var_a

/-- The function `internal::wiener5_grad_v<WrtLog, Scalar>(y, a, v_value, w_value, sv,
err)`; `wiener5_density_natural` stands for `wiener5_density<true, Scalar>`, which only
the branch `WrtLog = true` calls. -/
def wiener5_grad_v {K : Type} [Field K] [DecidableEq K] (WrtLog : Bool)
    (wiener5_density_natural : K → K → K → K → K → K → K)
    (y a v_value w_value sv err : K) : K :=
  let ans := a * (1 - w_value) - v_value * y
  let ans := if sv ≠ 0 then ans / (1 + square sv * y) else ans
  if WrtLog then ans * wiener5_density_natural y a v_value w_value sv err else ans

/-- The function `internal::wiener5_grad_sv<WrtLog, Scalar>(y, a, v_value, w_value, sv,
err)`; `wiener5_density_natural` stands for `wiener5_density<true, Scalar>`, which only
the branch `WrtLog = true` calls. -/
def wiener5_grad_sv {K : Type} [Field K] [DecidableEq K] (WrtLog : Bool)
    (wiener5_density_natural : K → K → K → K → K → K → K)
    (y a v_value w_value sv err : K) : K :=
  let one_plus_svsqr_y := 1 + square sv * y
  let w := 1 - w_value
  let v := -v_value
  let t1 := -y / one_plus_svsqr_y
  let t2 := (square (a * w) + 2 * a * v * w * y + square (v * y)) / square one_plus_svsqr_y
  let ans := sv * (t1 + t2)
  if WrtLog then ans * wiener5_density_natural y a v_value w_value sv err else ans

/-! ## `grad_pFq` (stan/math/prim/fun/grad_pFq.hpp) -/

/-- The functions `grad_pFq` calls that are not in the sources at hand, on doubles:
`log`, `exp`, `log1p`, `inv`, the division, `sign`, the reductions `sum`, `prod` and
`maxCoeff` of an array, and `hypergeometric_pFq`, which may throw. -/
structure PFqMath where
  log : Dbl → Dbl
  exp : Dbl → Dbl
  log1p : Dbl → Dbl
  inv : Dbl → Dbl
  div : Dbl → Dbl → Dbl
  sign : Dbl → Int
  sum : List Dbl → Dbl
  prod : List Dbl → Dbl
  maxCoeff : List Dbl → Dbl
  hypergeometric_pFq : List Dbl → List Dbl → Dbl → Except Error Dbl

/-- Conversion of an `int` to a double (exact below 2^53). -/
def Dbl.ofInt (n : Int) : Dbl := Dbl.fin n

/-- The function `std::max(a, b)` on doubles: `(a < b) ? b : a`. -/
def std_max (a b : Dbl) : Dbl := if a.lt b then b else a

/-- The function `internal::binarysign(x)`: `select(x == 0.0, 1.0, sign(x))`.  Its values
are the doubles 1.0, -1.0 (and what `sign` returns), kept here as integers. -/
def binarysign (pm : PFqMath) (x : Dbl) : Int :=
  if x.beq (Dbl.fin 0) then 1 else pm.sign x

/-- The variables of `grad_pFq` that its loop reads and writes; `ret_a` and `ret_b` are
`std::get<0>(ret_tuple)` and `std::get<1>(ret_tuple)`. -/
structure PFqState where
  k : Int
  base_sign : Int
  curr_log_prec : Dbl
  log_base : Dbl
  a_k : List Dbl
  b_k : List Dbl
  digamma_a : List Dbl
  digamma_b : List Dbl
  ret_a : List Dbl
  ret_b : List Dbl

/-- The condition of the loop of `grad_pFq`:
`(k < 10 || curr_log_prec > log(precision)) && (k <= max_steps)`. -/
def grad_pFq_cond (pm : PFqMath) (precision : Dbl) (max_steps : Int) (st : PFqState) :
    Bool :=
  (decide (st.k < 10) || st.curr_log_prec.gt (pm.log precision)) &&
    decide (st.k ≤ max_steps)

/-- The part of the loop body of `grad_pFq` under `if (CalcA)`, also the part under
`if (CalcB)` with `sub = true`: it returns the updated gradient, `curr_log_prec` and
`digamma`. -/
def grad_pFq_accumulate (ops : FloatOps) (pm : PFqMath) (sub : Bool) (base_sign : Int)
    (log_base curr_log_prec : Dbl) (ret digamma x_k : List Dbl) :
    List Dbl × Dbl × List Dbl :=
  let grad := digamma.map
    (fun d => ops.add (pm.log (if d.beq (Dbl.fin 0) then Dbl.fin 1 else d.fabs)) log_base)
  let term := List.zipWith
    (fun g d => ops.mul (ops.mul (pm.exp g) (Dbl.ofInt base_sign))
      (Dbl.ofInt (binarysign pm d))) grad digamma
  let ret := List.zipWith (fun r t => if sub then ops.sub r t else ops.add r t) ret term
  let curr_log_prec := std_max curr_log_prec (pm.maxCoeff grad)
  let digamma := List.zipWith
    (fun d x => ops.add d (if x.beq (Dbl.fin 0) then Dbl.fin 0 else pm.inv x)) digamma x_k
  (ret, curr_log_prec, digamma)

/-- One iteration of the loop of `grad_pFq`. -/
def grad_pFq_body (ops : FloatOps) (pm : PFqMath) (CalcA CalcB : Bool) (log_z : Dbl)
    (z_sign : Int) (st : PFqState) : PFqState :=
  let curr_log_prec := Dbl.NEGATIVE_INFTY
  let ra := if CalcA then
      grad_pFq_accumulate ops pm false st.base_sign st.log_base curr_log_prec st.ret_a
        st.digamma_a st.a_k
    else (st.ret_a, curr_log_prec, st.digamma_a)
  let curr_log_prec := ra.2.1
  let rb := if CalcB then
      grad_pFq_accumulate ops pm true st.base_sign st.log_base curr_log_prec st.ret_b
        st.digamma_b st.b_k
    else (st.ret_b, curr_log_prec, st.digamma_b)
  let curr_log_prec := rb.2.1
  let log_base := ops.add st.log_base
    (ops.sub
      (ops.add
        (pm.sum (st.a_k.map
          (fun x => pm.log (if x.beq (Dbl.fin 0) then Dbl.fin 0 else x.fabs))))
        log_z)
      (ops.add
        (pm.sum (st.b_k.map
          (fun x => pm.log (if x.beq (Dbl.fin 0) then Dbl.fin 0 else x.fabs))))
        (pm.log1p (Dbl.ofInt st.k))))
  let base_sign := st.base_sign *
    (z_sign * (st.a_k.map (binarysign pm)).prod * (st.b_k.map (binarysign pm)).prod)
  ⟨st.k + 1, base_sign, curr_log_prec, log_base,
    st.a_k.map (fun x => ops.add x (Dbl.fin 1)),
    st.b_k.map (fun x => ops.add x (Dbl.fin 1)), ra.2.2, rb.2.2, ra.1, rb.1⟩

/-- The loop `while (cond) { body }` of `grad_pFq`, run for at most `fuel` iterations. -/
def grad_pFq_while (ops : FloatOps) (pm : PFqMath) (CalcA CalcB : Bool) (log_z : Dbl)
    (z_sign : Int) (precision : Dbl) (max_steps : Int) : Nat → PFqState → PFqState
  | 0, st => st
  | fuel + 1, st =>
    if grad_pFq_cond pm precision max_steps st then
      grad_pFq_while ops pm CalcA CalcB log_z z_sign precision max_steps fuel
        (grad_pFq_body ops pm CalcA CalcB log_z z_sign st)
    else st

/-- The variables of `grad_pFq` before its loop. -/
def grad_pFq_init (pm : PFqMath) (a b : List Dbl) : PFqState :=
  ⟨0, 1, Dbl.NEGATIVE_INFTY, Dbl.fin 0, a, b, a.map pm.inv, b.map pm.inv,
    a.map (fun _ => Dbl.fin 0), b.map (fun _ => Dbl.fin 0)⟩

/-- The variables of `grad_pFq` when its loop ends.  The loop is given `max_steps + 1`
iterations of fuel, which it never exhausts with its condition still true
(`grad_pFq_exit_cond`); `k` is the number of iterations run. -/
def grad_pFq_exit (ops : FloatOps) (pm : PFqMath) (CalcA CalcB : Bool) (a b : List Dbl)
    (z precision : Dbl) (max_steps : Int) : PFqState :=
  grad_pFq_while ops pm CalcA CalcB (pm.log z.fabs) (binarysign pm z) precision max_steps
    (max_steps + 1).toNat (grad_pFq_init pm a b)

/-- The first two components of the tuple `grad_pFq` returns: zero vectors when neither
`CalcA` nor `CalcB` is set, otherwise the sums the loop ended with, minus
`pfq_val / a_array` under `CalcA` and plus `pfq_val / b_array` under `CalcB`. -/
def grad_pFq_ab (ops : FloatOps) (pm : PFqMath) (CalcA CalcB : Bool) (pfq_val : Dbl)
    (a b : List Dbl) (z precision : Dbl) (max_steps : Int) : List Dbl × List Dbl :=
  if CalcA || CalcB then
    let st := grad_pFq_exit ops pm CalcA CalcB a b z precision max_steps
    let ret_a := if CalcA then
        List.zipWith (fun r x => ops.sub r (pm.div pfq_val x)) st.ret_a a
      else st.ret_a
    let ret_b := if CalcB then
        List.zipWith (fun r x => ops.add r (pm.div pfq_val x)) st.ret_b b
      else st.ret_b
    (ret_a, ret_b)
  else (a.map (fun _ => Dbl.fin 0), b.map (fun _ => Dbl.fin 0))

/-- The function template `grad_pFq<CalcA, CalcB, CalcZ>(pfq_val, a, b, z, precision,
max_steps)`, on doubles.  The integers `k` and `max_steps` are `int`; `k` stays within
`0 .. max_steps + 1`. -/
def grad_pFq (ops : FloatOps) (pm : PFqMath) (CalcA CalcB CalcZ : Bool) (pfq_val : Dbl)
    (a b : List Dbl) (z precision : Dbl) (max_steps : Int) :
    Except Error (List Dbl × List Dbl × Dbl) :=
  let ret := grad_pFq_ab ops pm CalcA CalcB pfq_val a b z precision max_steps
  if CalcZ then
    match pm.hypergeometric_pFq (a.map (fun x => ops.add x (Dbl.fin 1)))
        (b.map (fun x => ops.add x (Dbl.fin 1))) z with
    | Except.error e => Except.error e
    | Except.ok pfq_p1_val =>
      Except.ok (ret.1, ret.2, ops.mul (pm.div (pm.prod a) (pm.prod b)) pfq_p1_val)
  else Except.ok (ret.1, ret.2, Dbl.fin 0)

/-- A sample `PFqMath` on which the definitions can be run.  Its `log`, `exp` and `log1p`
are exact at the arguments 0, 1, ±∞ where the value is a double, and rational bounds
elsewhere (`log x <= x - 1`, `log1p x <= x`, `exp x >= 1 + x` for `x >= 0`,
`exp x <= 1 / (1 - x)` for `x < 0`); `inv`, the division and the reductions are without
rounding; `hypergeometric_pFq` answers 1 at `z = 0` and throws elsewhere.  The theorems
hold for every `PFqMath`. -/
def samplePFqMath : PFqMath where
  log := sampleLibM.log
  exp := fun x =>
    match x with
    | Dbl.nan => Dbl.nan
    | Dbl.inf true => Dbl.fin 0
    | Dbl.inf false => Dbl.inf false
    | Dbl.negZero => Dbl.fin 1
    | Dbl.fin q => if 0 ≤ q then Dbl.fin (1 + q) else Dbl.fin (1 / (1 - q))
  log1p := fun x =>
    match x with
    | Dbl.nan => Dbl.nan
    | Dbl.inf true => Dbl.nan
    | Dbl.inf false => Dbl.inf false
    | Dbl.negZero => Dbl.negZero
    | Dbl.fin q => if q < -1 then Dbl.nan else if q = -1 then Dbl.inf true else Dbl.fin q
  inv := fun x =>
    match x with
    | Dbl.nan => Dbl.nan
    | Dbl.inf s => Dbl.zero s
    | Dbl.negZero => Dbl.inf true
    | Dbl.fin q => if q = 0 then Dbl.inf false else Dbl.fin (1 / q)
  div := fun x y =>
    match y with
    | Dbl.fin q => if q = 0 then Dbl.mulExact x (Dbl.inf false) else Dbl.mulExact x (Dbl.fin (1 / q))
    | Dbl.negZero => Dbl.mulExact x (Dbl.inf true)
    | Dbl.inf s => Dbl.mulExact x (Dbl.zero s)
    | Dbl.nan => Dbl.nan
  sign := fun x => if x.beq (Dbl.fin 0) then 0 else if x.lt (Dbl.fin 0) then -1 else 1
  sum := fun l => l.foldl Dbl.addExact (Dbl.fin 0)
  prod := fun l => l.foldl Dbl.mulExact (Dbl.fin 1)
  maxCoeff := fun l =>
    match l with
    | [] => Dbl.NEGATIVE_INFTY
    | x :: t => t.foldl std_max x
  hypergeometric_pFq := fun _ _ z =>
    if z.beq (Dbl.fin 0) then Except.ok (Dbl.fin 1) else Except.error Error.domain_error


/-! ## `one_hot_vector` (prim/fun/one_hot_vector.hpp) -/

/-- Modelled from the spec: `check_nonnegative` on one integer passes when `y >= 0`;
otherwise the caller raises a domain error. -/
def check_nonnegative_int (y : Int) : Bool := decide (0 ≤ y)

/-- Modelled from the spec: `check_bounded(y, low, high)` on integers passes when
`low <= y && y <= high`; otherwise the caller raises a domain error. -/
def check_bounded (y low high : Int) : Bool := decide (low ≤ y) && decide (y ≤ high)

/-- What a call of `one_hot_vector` ends in: the vector it returns, or the exception that
leaves it together with whether `ret` had been built when it was raised. -/
inductive VectorOutcome where
  | returned (ret : List Dbl)
  | threw (e : Error) (vector_built : Bool)

/-- The function `one_hot_vector(long K, long k)`: the two checks, then
`Eigen::VectorXd::Zero(K)` and the assignment `ret(k - 1) = 1`. -/
def one_hot_vector (K k : Int) : VectorOutcome :=
  if !check_nonnegative_int K then VectorOutcome.threw Error.domain_error false
  else if !check_bounded k 1 K then VectorOutcome.threw Error.domain_error false
  else
    let ret := List.replicate K.toNat (Dbl.fin 0)
    let ret := ret.set (k - 1).toNat (Dbl.fin 1)
    VectorOutcome.returned ret

/-! ## `get_base1_lhs` (known from test/unit/math/mix/mat/fun/get_base1_lhs_test.cpp) -/

/-- Modelled from the spec: `get_base1_lhs(x, i, error_msg, idx)` on a `std::vector`,
whose header `stan/math/prim/mat/fun/get_base1_lhs.hpp` is missing from the sources (only
its unit test is there).  The 1-based bounds-checked accessor succeeds for every index in
`[1, x.size()]` and raises an out-of-range error otherwise; on success it yields a
reference to `x[i - 1]`, represented here by that 0-based position.  The arguments
`error_msg` and `idx` only shape the message of the exception and are left out. -/
def get_base1_lhs {α : Type} (x : List α) (i : Nat) : Except Error Nat :=
  if 1 ≤ i ∧ i ≤ x.length then Except.ok (i - 1) else Except.error Error.out_of_range

/-- Reading the element a reference into `x` refers to. -/
def ref_read {α : Type} (x : List α) (r : Nat) : Option α := x[r]?

/-- Assigning `v` through a reference into `x`: the sequence afterwards. -/
def ref_assign {α : Type} (x : List α) (r : Nat) (v : α) : List α := x.set r v

/-- Modelled from the spec: the nested call
`get_base1_lhs(get_base1_lhs(x, m, ..), n, ..)` on a vector of vectors, with the same
missing header: the outer call yields a reference to the row `x[m - 1]`, the inner call a
reference to its element `n - 1`; either call raises an out-of-range error for an index
outside its range. -/
def get_base1_lhs_nested {α : Type} (x : List (List α)) (m n : Nat) :
    Except Error (Nat × Nat) :=
  match get_base1_lhs x m with
  | Except.error e => Except.error e
  | Except.ok r =>
    match get_base1_lhs (x.getD r []) n with
    | Except.error e => Except.error e
    | Except.ok c => Except.ok (r, c)

/-- Reading the element a nested reference refers to. -/
def ref_read_nested {α : Type} (x : List (List α)) (r : Nat × Nat) : Option α :=
  (x[r.1]?).bind (fun row => row[r.2]?)

/-- Assigning `v` through a nested reference: the vector of vectors afterwards. -/
def ref_assign_nested {α : Type} (x : List (List α)) (r : Nat × Nat) (v : α) :
    List (List α) :=
  x.set r.1 ((x.getD r.1 []).set r.2 v)

/-! ## `identity_matrix` (known from test/unit/math/prim/fun/identity_matrix_test.cpp) -/

/-- A dynamic matrix of doubles, `Eigen::MatrixXd`: its two dimensions and its rows. -/
structure MatrixXd where
  rows : Nat
  cols : Nat
  coeffs : List (List Dbl)

/-- Modelled from the spec: the validation of `identity_matrix(K)`, whose header
`stan/math/prim/fun/identity_matrix.hpp` is missing from the sources (only its unit test
is there).  A negative size is invalid input: the validation helper raises a domain error
before anything is built.  The specification does not say what the call returns for a
size that passes, so the matrix built for a size `K >= 0` is the parameter `result`. -/
def identity_matrix (result : Nat → MatrixXd) (K : Int) : Except Error MatrixXd :=
  if !check_nonnegative_int K then Except.error Error.domain_error
  else Except.ok (result K.toNat)

/-! ## Definitions for the partials of `y` and `t0` in `wiener5_lpdf` -/

theorem Dbl.ext_of_not_nan {x : Dbl} (h : x.is_nan = false) : ∃ u, x.ext = some u := by
  cases x with
  | nan => simp [Dbl.is_nan] at h
  | inf s => cases s <;> exact ⟨_, rfl⟩
  | negZero => exact ⟨_, rfl⟩
  | fin q => exact ⟨_, rfl⟩

theorem Dbl.sameValue_refl (x : Dbl) : x.sameValue x = true := by
  cases x with
  | nan => rfl
  | inf s => cases s <;> simp [Dbl.sameValue, Dbl.beq, Dbl.ext]
  | negZero => simp [Dbl.sameValue, Dbl.beq, Dbl.ext]
  | fin q => simp [Dbl.sameValue, Dbl.beq, Dbl.ext]

theorem Dbl.lt_imp_le {x y : Dbl} (h : x.lt y = true) : x.le y = true := by
  unfold Dbl.lt at h
  unfold Dbl.le
  cases hx : x.ext <;> cases hy : y.ext <;> simp [hx, hy] at h ⊢
  exact le_of_lt h

theorem Dbl.sameValue_of_le_not_lt {x y : Dbl} (h1 : x.le y = true) (h2 : x.lt y = false) :
    y.sameValue x = true := by
  unfold Dbl.le at h1
  unfold Dbl.lt at h2
  unfold Dbl.sameValue Dbl.beq
  cases hx : x.ext <;> cases hy : y.ext <;> simp [hx, hy] at h1 h2 ⊢
  exact Or.inr (le_antisymm h2 h1)

theorem Dbl.sameValue_of_le_le {x y : Dbl} (h1 : x.le y = true) (h2 : y.le x = true) :
    y.sameValue x = true := by
  unfold Dbl.le at h1 h2
  unfold Dbl.sameValue Dbl.beq
  cases hx : x.ext <;> cases hy : y.ext <;> simp [hx, hy] at h1 h2 ⊢
  exact Or.inr (le_antisymm h2 h1)

theorem Dbl.le_of_not_le {x y : Dbl} (hx : x.is_nan = false) (hy : y.is_nan = false)
    (h : y.le x = false) : x.le y = true := by
  obtain ⟨u, hu⟩ := Dbl.ext_of_not_nan hx
  obtain ⟨v, hv⟩ := Dbl.ext_of_not_nan hy
  unfold Dbl.le at h ⊢
  simp [hu, hv] at h ⊢
  exact le_of_lt h

theorem Dbl.lt_of_not_le {x y : Dbl} (hx : x.is_nan = false) (hy : y.is_nan = false)
    (h : y.le x = false) : x.lt y = true := by
  obtain ⟨u, hu⟩ := Dbl.ext_of_not_nan hx
  obtain ⟨v, hv⟩ := Dbl.ext_of_not_nan hy
  unfold Dbl.le at h
  unfold Dbl.lt
  simp [hu, hv] at h ⊢
  exact h

theorem Dbl.not_le_of_lt {x y : Dbl} (h : x.lt y = true) : y.le x = false := by
  unfold Dbl.lt at h
  unfold Dbl.le
  cases hx : x.ext <;> cases hy : y.ext <;> simp [hx, hy] at h ⊢
  exact h

namespace ChainableStack

theorem node_new_vari_self (s : ChainableStack) (v : Vari) :
    (s.new_vari v).1.node (s.new_vari v).2 = some v := by
  simp [new_vari, node, size]

theorem val_new_vari_self (s : ChainableStack) (v : Vari) :
    (s.new_vari v).1.val (s.new_vari v).2 = v.val := by
  simp [val, node_new_vari_self]

theorem node_new_vari_old (s : ChainableStack) (v : Vari) (a : var) (h : a.vi_ < s.size) :
    (s.new_vari v).1.node a = s.node a := by
  simp only [new_vari, node, size] at h ⊢
  rw [List.getElem?_append_left h]

theorem val_new_vari_old (s : ChainableStack) (v : Vari) (a : var) (h : a.vi_ < s.size) :
    (s.new_vari v).1.val a = s.val a := by
  simp [val, node_new_vari_old s v a h]

theorem size_new_vari (s : ChainableStack) (v : Vari) :
    (s.new_vari v).1.size = s.size + 1 := by
  simp [new_vari, size]

end ChainableStack

theorem resultVal_fmin_vv (s : ChainableStack) (a b : var) :
    (resultVal (fmin_vv s a b)).sameValue (fminTable (s.val a) (s.val b)) = true := by
  unfold fmin_vv fminTable resultVal
  cases ha : (s.val a).is_nan <;> cases hb : (s.val b).is_nan <;>
    simp only [Bool.false_eq_true, ↓reduceIte]
  · cases hlt : (s.val a).lt (s.val b) <;> cases hle : (s.val a).le (s.val b) <;>
      simp only [Bool.false_eq_true, ↓reduceIte]
    · exact Dbl.sameValue_refl _
    · exact Dbl.sameValue_of_le_not_lt hle hlt
    · rw [Dbl.lt_imp_le hlt] at hle
      cases hle
    · exact Dbl.sameValue_refl _
  · exact Dbl.sameValue_refl _
  · exact Dbl.sameValue_refl _
  · rw [ChainableStack.val_new_vari_self]
    rfl

theorem resultVal_fmin_vd (s : ChainableStack) (a : var) (b : Dbl) :
    resultVal (fmin_vd s a b) = fminTable (s.val a) b := by
  unfold fmin_vd fminTable resultVal ChainableStack.make_callback_var
    ChainableStack.var_double
  cases ha : (s.val a).is_nan <;> cases hb : b.is_nan <;>
    simp only [Bool.false_eq_true, ↓reduceIte]
  · cases hle : (s.val a).le b <;> simp only [Bool.false_eq_true, ↓reduceIte]
    rw [ChainableStack.val_new_vari_self]
  · rw [ChainableStack.val_new_vari_self]
  · rw [ChainableStack.val_new_vari_self]
    rfl

theorem resultVal_fmin_dv (s : ChainableStack) (a : Dbl) (b : var) :
    (resultVal (fmin_dv s a b)).sameValue (fminTable a (s.val b)) = true := by
  unfold fmin_dv fminTable resultVal ChainableStack.make_callback_var
    ChainableStack.var_double
  cases ha : a.is_nan <;> cases hb : (s.val b).is_nan <;>
    simp only [Bool.false_eq_true, ↓reduceIte]
  · cases hle : (s.val b).le a <;> cases hle2 : a.le (s.val b) <;>
      simp only [Bool.false_eq_true, ↓reduceIte]
    · rw [Dbl.le_of_not_le ha hb hle] at hle2
      cases hle2
    · rw [ChainableStack.val_new_vari_self]
      exact Dbl.sameValue_refl _
    · exact Dbl.sameValue_refl _
    · exact Dbl.sameValue_of_le_le hle2 hle
  · rw [ChainableStack.val_new_vari_self]
    exact Dbl.sameValue_refl _
  · exact Dbl.sameValue_refl _
  · rw [ChainableStack.val_new_vari_self]
    rfl

theorem resultVal_fmin_vv_exact (s : ChainableStack) (a b : var) :
    resultVal (fmin_vv s a b) = fminTable (s.val a) (s.val b) ∨
      ((s.val a).beq (s.val b) = true ∧ resultVal (fmin_vv s a b) = s.val b) := by
  unfold fmin_vv fminTable resultVal
  cases ha : (s.val a).is_nan <;> cases hb : (s.val b).is_nan <;>
    simp only [Bool.false_eq_true, ↓reduceIte]
  · cases hlt : (s.val a).lt (s.val b) <;> cases hle : (s.val a).le (s.val b) <;>
      simp only [Bool.false_eq_true, ↓reduceIte]
    · exact Or.inl trivial
    · refine Or.inr ⟨?_, trivial⟩
      have h := Dbl.sameValue_of_le_not_lt hle hlt
      simp only [Dbl.sameValue, ha, hb, Bool.and_self, Bool.false_or] at h
      unfold Dbl.beq at h ⊢
      cases hx : (s.val a).ext <;> cases hy : (s.val b).ext <;> simp [hx, hy] at h ⊢
      exact h.symm
    · rw [Dbl.lt_imp_le hlt] at hle
      cases hle
    · exact Or.inl trivial
  · exact Or.inl trivial
  · exact Or.inl trivial
  · rw [ChainableStack.val_new_vari_self]
    exact Or.inl rfl

theorem resultVal_fmin_dv_exact (s : ChainableStack) (a : Dbl) (b : var) :
    resultVal (fmin_dv s a b) = fminTable a (s.val b) ∨
      (a.beq (s.val b) = true ∧ resultVal (fmin_dv s a b) = s.val b) := by
  unfold fmin_dv fminTable resultVal ChainableStack.make_callback_var
    ChainableStack.var_double
  cases ha : a.is_nan <;> cases hb : (s.val b).is_nan <;>
    simp only [Bool.false_eq_true, ↓reduceIte]
  · cases hle : (s.val b).le a <;> cases hle2 : a.le (s.val b) <;>
      simp only [Bool.false_eq_true, ↓reduceIte]
    · rw [Dbl.le_of_not_le ha hb hle] at hle2
      cases hle2
    · rw [ChainableStack.val_new_vari_self]
      exact Or.inl rfl
    · exact Or.inl trivial
    · refine Or.inr ⟨?_, trivial⟩
      have h := Dbl.sameValue_of_le_le hle2 hle
      simp only [Dbl.sameValue, ha, hb, Bool.and_self, Bool.false_or] at h
      unfold Dbl.beq at h ⊢
      cases hx : a.ext <;> cases hy : (s.val b).ext <;> simp [hx, hy] at h ⊢
      exact h.symm
  · rw [ChainableStack.val_new_vari_self]
    exact Or.inl rfl
  · exact Or.inl trivial
  · rw [ChainableStack.val_new_vari_self]
    exact Or.inl rfl

/-- C1: for every pair of doubles `x`, `y` (NaN, the infinities and the zeros included),
the value of `fmin(var x, var y)`, of `fmin(var x, double y)` and of
`fmin(double x, var y)` is the value of the documented table: NaN when both are NaN, the
argument that is not NaN when exactly one is, otherwise `x` when `x <= y` and `y` when
`x > y`.  The value is the table's entry itself, except that on a tie `x == y` the two
overloads that return `y` there give a value that compares equal to `x`.  Every double is
the value of some variable. -/
theorem fmin_value_table (s : ChainableStack) (a b : var) (x y : Dbl) :
    ((resultVal (fmin_vv s a b)).sameValue (fminTable (s.val a) (s.val b)) = true ∧
      (resultVal (fmin_vv s a b) = fminTable (s.val a) (s.val b) ∨
        ((s.val a).beq (s.val b) = true ∧ resultVal (fmin_vv s a b) = s.val b))) ∧
    resultVal (fmin_vd s a y) = fminTable (s.val a) y ∧
    ((resultVal (fmin_dv s x b)).sameValue (fminTable x (s.val b)) = true ∧
      (resultVal (fmin_dv s x b) = fminTable x (s.val b) ∨
        (x.beq (s.val b) = true ∧ resultVal (fmin_dv s x b) = s.val b))) ∧
    (s.var_double x).1.val (s.var_double x).2 = x :=
  ⟨⟨resultVal_fmin_vv s a b, resultVal_fmin_vv_exact s a b⟩, resultVal_fmin_vd s a y,
    ⟨resultVal_fmin_dv s x b, resultVal_fmin_dv_exact s x b⟩,
    ChainableStack.val_new_vari_self s _⟩

/-! ## Adjoint routing of `fmin` -/

theorem chain_of_leaf (ops : FloatOps) (s : ChainableStack) (r : var)
    (h : ∀ v ∈ s.var_stack_, v.chain = Chain.leaf) : chain ops s r = s := by
  unfold chain
  cases hn : s.node r with
  | none => rfl
  | some v =>
    have hv : v ∈ s.var_stack_ := by
      unfold ChainableStack.node at hn
      exact List.getElem?_mem hn
    simp only [h v hv, Chain.run]

theorem sweep_of_leaves (ops : FloatOps) (n : Nat) (s : ChainableStack)
    (h : ∀ v ∈ s.var_stack_, v.chain = Chain.leaf) : sweep ops n s = s := by
  induction n with
  | zero => rfl
  | succ n ih => rw [sweep, chain_of_leaf ops s _ h, ih]

theorem grad_of_leaves (ops : FloatOps) (s : ChainableStack) (root : var)
    (h : ∀ v ∈ s.var_stack_, v.chain = Chain.leaf) :
    grad ops s root = s.set_adj root (Dbl.fin 1) := by
  unfold grad
  exact sweep_of_leaves ops _ _ h

theorem node_set_adj (s : ChainableStack) (r a : var) (g : Dbl) :
    (s.set_adj r g).node a = s.node a := rfl

theorem chain_precomp_nan (ops : FloatOps) (self avi bvi : Nat) (adj : Adjoints) :
    (Chain.precomp_vv avi bvi Dbl.nan Dbl.nan).run ops self adj avi = Dbl.nan ∧
      (Chain.precomp_vv avi bvi Dbl.nan Dbl.nan).run ops self adj bvi = Dbl.nan := by
  simp only [Chain.run, ops.mul_nan_right, ops.add_nan_right, Function.update_same, and_true]
  by_cases h : avi = bvi
  · subst h
    simp
  · rw [Function.update_noteq h, Function.update_same]

/-- C2: when both `a` and `b` are NaN, `fmin(var a, var b)` allocates one new node, a
binary node on `a` and `b` with value NaN and both partials NaN, and returns it; once
its chain step has run, whatever adjoint `g` the result had (0 included), the adjoints of
`a` and of `b` are NaN. -/
theorem fmin_vv_both_nan (ops : FloatOps) (s : ChainableStack) (a b : var) (g : Dbl)
    (ha : (s.val a).is_nan = true) (hb : (s.val b).is_nan = true) :
    (fmin_vv s a b).2 = ⟨s.size⟩ ∧
    (fmin_vv s a b).1.var_stack_
      = s.var_stack_ ++ [⟨Dbl.nan, Chain.precomp_vv a.vi_ b.vi_ Dbl.nan Dbl.nan⟩] ∧
    resultVal (fmin_vv s a b) = Dbl.nan ∧
    (chain ops ((fmin_vv s a b).1.set_adj (fmin_vv s a b).2 g) (fmin_vv s a b).2).adjOf a
      = Dbl.nan ∧
    (chain ops ((fmin_vv s a b).1.set_adj (fmin_vv s a b).2 g) (fmin_vv s a b).2).adjOf b
      = Dbl.nan := by
  have hf : fmin_vv s a b
      = s.new_vari ⟨Dbl.nan, Chain.precomp_vv a.vi_ b.vi_ Dbl.nan Dbl.nan⟩ := by
    simp [fmin_vv, ha, hb, Dbl.NOT_A_NUMBER]
  rw [hf]
  refine ⟨rfl, rfl, ?_, ?_, ?_⟩
  · simp only [resultVal]
    rw [ChainableStack.val_new_vari_self]
  · unfold chain
    rw [node_set_adj, ChainableStack.node_new_vari_self]
    exact (chain_precomp_nan ops _ _ _ _).1
  · unfold chain
    rw [node_set_adj, ChainableStack.node_new_vari_self]
    exact (chain_precomp_nan ops _ _ _ _).2

/-- Witness of `fmin_vv_both_nan`: two NaN variables on a fresh tape, result adjoint 0. -/
theorem fmin_vv_both_nan_witness :
    (fmin_vv ⟨[⟨Dbl.nan, Chain.leaf⟩, ⟨Dbl.nan, Chain.leaf⟩], fun _ => Dbl.fin 0⟩ ⟨0⟩ ⟨1⟩).2
      = ⟨2⟩ ∧
    (chain exactOps
      ((fmin_vv ⟨[⟨Dbl.nan, Chain.leaf⟩, ⟨Dbl.nan, Chain.leaf⟩], fun _ => Dbl.fin 0⟩
          ⟨0⟩ ⟨1⟩).1.set_adj
        (fmin_vv ⟨[⟨Dbl.nan, Chain.leaf⟩, ⟨Dbl.nan, Chain.leaf⟩], fun _ => Dbl.fin 0⟩
          ⟨0⟩ ⟨1⟩).2 (Dbl.fin 0))
      (fmin_vv ⟨[⟨Dbl.nan, Chain.leaf⟩, ⟨Dbl.nan, Chain.leaf⟩], fun _ => Dbl.fin 0⟩
        ⟨0⟩ ⟨1⟩).2).adjOf ⟨0⟩ = Dbl.nan :=
  have h := fmin_vv_both_nan exactOps
    ⟨[⟨Dbl.nan, Chain.leaf⟩, ⟨Dbl.nan, Chain.leaf⟩], fun _ => Dbl.fin 0⟩ ⟨0⟩ ⟨1⟩ (Dbl.fin 0)
    rfl rfl
  ⟨h.1, h.2.2.2.1⟩

theorem fmin_vv_of_one_nan (s : ChainableStack) (a b : var)
    (h : (s.val a).is_nan ≠ (s.val b).is_nan) :
    fmin_vv s a b = (s, if (s.val a).is_nan then b else a) := by
  unfold fmin_vv
  cases ha : (s.val a).is_nan <;> cases hb : (s.val b).is_nan <;>
    simp only [Bool.false_eq_true, ↓reduceIte]
  · rw [ha, hb] at h
    exact absurd rfl h
  · rw [ha, hb] at h
    exact absurd rfl h

/-- What `fmin(var a, var b)` does when neither value is NaN: `a < b ? a : b`, on an
unchanged tape. -/
theorem fmin_vv_of_not_nan (s : ChainableStack) (a b : var)
    (ha : (s.val a).is_nan = false) (hb : (s.val b).is_nan = false) :
    fmin_vv s a b = (s, if (s.val a).lt (s.val b) then a else b) := by
  unfold fmin_vv
  simp only [ha, hb, Bool.false_eq_true, ↓reduceIte]
  split <;> rfl

/-- C3: when exactly one of `a`, `b` is NaN, `fmin(var a, var b)` returns the operand
that is not NaN itself, on an unchanged tape.  With both adjoints at their initial 0,
seeding the adjoint of the result with 1 puts adjoint 1 on that operand and leaves the
adjoint of the NaN operand at 0; on a tape of independent variables the reverse pass
`grad` ends in the same adjoints. -/
theorem fmin_vv_one_nan (ops : FloatOps) (s : ChainableStack) (a b : var)
    (h : (s.val a).is_nan ≠ (s.val b).is_nan)
    (ha0 : s.adjOf a = Dbl.fin 0) (hb0 : s.adjOf b = Dbl.fin 0) :
    fmin_vv s a b = (s, if (s.val a).is_nan then b else a) ∧
    ((fmin_vv s a b).1.set_adj (fmin_vv s a b).2 (Dbl.fin 1)).adjOf
        (if (s.val a).is_nan then b else a) = Dbl.fin 1 ∧
    ((fmin_vv s a b).1.set_adj (fmin_vv s a b).2 (Dbl.fin 1)).adjOf
        (if (s.val a).is_nan then a else b) = Dbl.fin 0 ∧
    ((∀ v ∈ s.var_stack_, v.chain = Chain.leaf) →
      (grad ops (fmin_vv s a b).1 (fmin_vv s a b).2).adjOf
          (if (s.val a).is_nan then b else a) = Dbl.fin 1 ∧
      (grad ops (fmin_vv s a b).1 (fmin_vv s a b).2).adjOf
          (if (s.val a).is_nan then a else b) = Dbl.fin 0) := by
  have hab : a.vi_ ≠ b.vi_ := by
    intro e
    have : a = b := by cases a; cases b; simp_all
    exact h (by rw [this])
  have hseed :
      (s.set_adj (if (s.val a).is_nan then b else a) (Dbl.fin 1)).adjOf
          (if (s.val a).is_nan then b else a) = Dbl.fin 1 ∧
      (s.set_adj (if (s.val a).is_nan then b else a) (Dbl.fin 1)).adjOf
          (if (s.val a).is_nan then a else b) = Dbl.fin 0 := by
    cases hna : (s.val a).is_nan <;>
      simp only [Bool.false_eq_true, ↓reduceIte, ChainableStack.set_adj,
        ChainableStack.adjOf, Function.update_same, true_and]
    · rw [Function.update_noteq (Ne.symm hab)]
      exact hb0
    · rw [Function.update_noteq hab]
      exact ha0
  rw [fmin_vv_of_one_nan s a b h]
  refine ⟨rfl, hseed.1, hseed.2, ?_⟩
  intro hleaf
  rw [grad_of_leaves ops s _ hleaf]
  exact hseed

/-- Witness of `fmin_vv_one_nan`: `fmin(1.0, NaN)` on a fresh tape of two variables. -/
theorem fmin_vv_one_nan_witness :
    fmin_vv ⟨[⟨Dbl.fin 1, Chain.leaf⟩, ⟨Dbl.nan, Chain.leaf⟩], fun _ => Dbl.fin 0⟩ ⟨0⟩ ⟨1⟩
      = (⟨[⟨Dbl.fin 1, Chain.leaf⟩, ⟨Dbl.nan, Chain.leaf⟩], fun _ => Dbl.fin 0⟩, ⟨0⟩) ∧
    (grad exactOps
      (fmin_vv ⟨[⟨Dbl.fin 1, Chain.leaf⟩, ⟨Dbl.nan, Chain.leaf⟩], fun _ => Dbl.fin 0⟩
        ⟨0⟩ ⟨1⟩).1
      (fmin_vv ⟨[⟨Dbl.fin 1, Chain.leaf⟩, ⟨Dbl.nan, Chain.leaf⟩], fun _ => Dbl.fin 0⟩
        ⟨0⟩ ⟨1⟩).2).adjOf ⟨0⟩ = Dbl.fin 1 ∧
    (grad exactOps
      (fmin_vv ⟨[⟨Dbl.fin 1, Chain.leaf⟩, ⟨Dbl.nan, Chain.leaf⟩], fun _ => Dbl.fin 0⟩
        ⟨0⟩ ⟨1⟩).1
      (fmin_vv ⟨[⟨Dbl.fin 1, Chain.leaf⟩, ⟨Dbl.nan, Chain.leaf⟩], fun _ => Dbl.fin 0⟩
        ⟨0⟩ ⟨1⟩).2).adjOf ⟨1⟩ = Dbl.fin 0 :=
  have h := fmin_vv_one_nan exactOps
    ⟨[⟨Dbl.fin 1, Chain.leaf⟩, ⟨Dbl.nan, Chain.leaf⟩], fun _ => Dbl.fin 0⟩ ⟨0⟩ ⟨1⟩
    (by decide) rfl rfl
  have hl := h.2.2.2 (by
    intro v hv
    simp only [List.mem_cons, List.mem_singleton, List.not_mem_nil, or_false] at hv
    rcases hv with e | e <;> rw [e])
  ⟨h.1, hl.1, hl.2⟩

theorem tieTape_le : (tieTape.val ⟨0⟩).le (tieTape.val ⟨1⟩) = true := by
  simp [tieTape, ChainableStack.val, ChainableStack.node, Dbl.le, Dbl.ext]

theorem tieTape_not_lt : (tieTape.val ⟨0⟩).lt (tieTape.val ⟨1⟩) = false := by
  simp [tieTape, ChainableStack.val, ChainableStack.node, Dbl.lt, Dbl.ext]

/-- C4, the code at `a = 1.0`, `b = 1.0` (two distinct variables): neither is NaN and
`a.val <= b.val`, yet `fmin(a, b)` returns the node of `b`, and the reverse pass from the
result gives `a` the adjoint 0 and `b` the adjoint 1, where the documented derivative
table has (1, 0). -/
theorem fmin_vv_tie_partials (ops : FloatOps) :
    (tieTape.val ⟨0⟩).is_nan = false ∧ (tieTape.val ⟨1⟩).is_nan = false ∧
    (tieTape.val ⟨0⟩).le (tieTape.val ⟨1⟩) = true ∧
    fmin_vv tieTape ⟨0⟩ ⟨1⟩ = (tieTape, ⟨1⟩) ∧
    (grad ops (fmin_vv tieTape ⟨0⟩ ⟨1⟩).1 (fmin_vv tieTape ⟨0⟩ ⟨1⟩).2).adjOf ⟨0⟩
      = Dbl.fin 0 ∧
    (grad ops (fmin_vv tieTape ⟨0⟩ ⟨1⟩).1 (fmin_vv tieTape ⟨0⟩ ⟨1⟩).2).adjOf ⟨1⟩
      = Dbl.fin 1 := by
  have hf : fmin_vv tieTape ⟨0⟩ ⟨1⟩ = (tieTape, ⟨1⟩) := by
    unfold fmin_vv
    rw [tieTape_not_lt]
    rfl
  have hleaf : ∀ v ∈ tieTape.var_stack_, v.chain = Chain.leaf := by
    intro v hv
    simp only [tieTape, List.mem_cons, List.mem_singleton, List.not_mem_nil, or_false] at hv
    rcases hv with e | e <;> rw [e]
  refine ⟨rfl, rfl, tieTape_le, hf, ?_, ?_⟩
  · rw [hf, grad_of_leaves ops _ _ hleaf]
    rfl
  · rw [hf, grad_of_leaves ops _ _ hleaf]
    rfl

theorem chain_new_leaf (ops : FloatOps) (s : ChainableStack) (x g : Dbl) :
    chain ops ((s.var_double x).1.set_adj (s.var_double x).2 g) (s.var_double x).2
      = (s.var_double x).1.set_adj (s.var_double x).2 g := by
  unfold chain ChainableStack.var_double
  rw [node_set_adj, ChainableStack.node_new_vari_self]
  rfl

theorem adjOf_new_vari_old (s : ChainableStack) (v : Vari) (a : var) (g : Dbl)
    (h : a.vi_ < s.size) :
    ((s.new_vari v).1.set_adj (s.new_vari v).2 g).adjOf a = s.adjOf a := by
  have hne : a.vi_ ≠ s.size := Nat.ne_of_lt h
  simp only [ChainableStack.new_vari, ChainableStack.set_adj, ChainableStack.adjOf]
  rw [Function.update_noteq hne, Function.update_noteq hne]

/-- C5: for a variable `a` and a double `b`, neither NaN, `fmin(a, b)` returns `a` itself
on an unchanged tape when `a.val <= b`, and otherwise the fresh variable `var(b)`: a new
leaf node of value `b`, distinct from `a`, whose chain step changes no adjoint, so that
the adjoint of `a` stays what it was. -/
theorem fmin_vd_not_nan (ops : FloatOps) (s : ChainableStack) (a : var) (b g : Dbl)
    (ha : (s.val a).is_nan = false) (hb : b.is_nan = false) (hnode : a.vi_ < s.size) :
    fmin_vd s a b = (if (s.val a).le b then (s, a) else s.var_double b) ∧
    (s.var_double b).1.var_stack_ = s.var_stack_ ++ [⟨b, Chain.leaf⟩] ∧
    (s.var_double b).1.node (s.var_double b).2 = some ⟨b, Chain.leaf⟩ ∧
    (s.var_double b).2 ≠ a ∧
    chain ops ((s.var_double b).1.set_adj (s.var_double b).2 g) (s.var_double b).2
      = (s.var_double b).1.set_adj (s.var_double b).2 g ∧
    ((s.var_double b).1.set_adj (s.var_double b).2 g).adjOf a = s.adjOf a := by
  refine ⟨?_, rfl, ChainableStack.node_new_vari_self s _, ?_, chain_new_leaf ops s b g,
    adjOf_new_vari_old s _ a g hnode⟩
  · simp [fmin_vd, ha, hb]
  · intro e
    rw [← e] at hnode
    exact Nat.lt_irrefl _ hnode

/-- Witness of `fmin_vd_not_nan`: `fmin(var 2.0, 1.0)` on a fresh tape. -/
theorem fmin_vd_not_nan_witness :
    fmin_vd ⟨[⟨Dbl.fin 2, Chain.leaf⟩], fun _ => Dbl.fin 0⟩ ⟨0⟩ (Dbl.fin 1)
      = (⟨[⟨Dbl.fin 2, Chain.leaf⟩, ⟨Dbl.fin 1, Chain.leaf⟩],
          Function.update (fun _ => Dbl.fin 0) 1 (Dbl.fin 0)⟩, ⟨1⟩) :=
  (fmin_vd_not_nan exactOps ⟨[⟨Dbl.fin 2, Chain.leaf⟩], fun _ => Dbl.fin 0⟩ ⟨0⟩ (Dbl.fin 1)
    (Dbl.fin 1) rfl rfl (by decide)).1.trans (by
      simp [ChainableStack.val, ChainableStack.node, Dbl.le, Dbl.ext,
        ChainableStack.var_double, ChainableStack.new_vari, ChainableStack.size])

theorem Dbl.not_lt_of_beq {x y : Dbl} (h : x.beq y = true) : x.lt y = false := by
  unfold Dbl.beq at h
  unfold Dbl.lt
  cases hx : x.ext <;> cases hy : y.ext <;> simp [hx, hy] at h ⊢
  exact le_of_eq h.symm

theorem Dbl.le_eq_not_lt {x y : Dbl} (hx : x.is_nan = false) (hy : y.is_nan = false) :
    y.le x = !x.lt y := by
  cases h : y.le x
  · rw [Dbl.lt_of_not_le hx hy h]
    rfl
  · cases h2 : x.lt y
    · rfl
    · rw [Dbl.not_le_of_lt h2] at h
      cases h

/-- C6: for a double `a` and a variable `b`, neither NaN, `fmin(a, b)` returns the fresh
variable `var(a)`, a new leaf node of value `a`, when `a < b.val`, and `b` itself on an
unchanged tape otherwise; a tie `a == b.val` is such a case, since it excludes
`a < b.val`. -/
theorem fmin_dv_not_nan (s : ChainableStack) (a : Dbl) (b : var)
    (ha : a.is_nan = false) (hb : (s.val b).is_nan = false) :
    fmin_dv s a b = (if a.lt (s.val b) then s.var_double a else (s, b)) ∧
    (s.var_double a).1.var_stack_ = s.var_stack_ ++ [⟨a, Chain.leaf⟩] ∧
    (s.var_double a).1.node (s.var_double a).2 = some ⟨a, Chain.leaf⟩ ∧
    (a.beq (s.val b) && a.lt (s.val b)) = false := by
  refine ⟨?_, rfl, ChainableStack.node_new_vari_self s _, ?_⟩
  · simp only [fmin_dv, ha, hb, Dbl.le_eq_not_lt ha hb, Bool.false_eq_true, ↓reduceIte]
    cases a.lt (s.val b) <;> simp
  · cases h : a.beq (s.val b)
    · rfl
    · rw [Dbl.not_lt_of_beq h]
      rfl

/-- Witness of `fmin_dv_not_nan`: the tie `fmin(1.0, var 1.0)` returns the variable. -/
theorem fmin_dv_not_nan_witness :
    fmin_dv ⟨[⟨Dbl.fin 1, Chain.leaf⟩], fun _ => Dbl.fin 0⟩ (Dbl.fin 1) ⟨0⟩
      = (⟨[⟨Dbl.fin 1, Chain.leaf⟩], fun _ => Dbl.fin 0⟩, ⟨0⟩) :=
  (fmin_dv_not_nan ⟨[⟨Dbl.fin 1, Chain.leaf⟩], fun _ => Dbl.fin 0⟩ (Dbl.fin 1) ⟨0⟩
    rfl rfl).1.trans (by
      simp [ChainableStack.val, ChainableStack.node, Dbl.lt, Dbl.ext])

theorem grad_new_vari (ops : FloatOps) (s : ChainableStack) (v : Vari) :
    grad ops (s.new_vari v).1 (s.new_vari v).2
      = sweep ops s.size
          (chain ops ((s.new_vari v).1.set_adj (s.new_vari v).2 (Dbl.fin 1))
            (s.new_vari v).2) := by
  unfold grad
  rw [ChainableStack.size_new_vari]
  rfl

/-- C7: in the mixed overloads `fmin(var a, double b)` and `fmin(double a, var b)`, when
both arguments are NaN the result is a new node of value NaN, and once the reverse pass
has run its callback (the first step of `grad`, whatever the adjoints were) the adjoint
of the variable operand is NaN. -/
theorem fmin_mixed_both_nan (ops : FloatOps) (s : ChainableStack) (v : var) (d g : Dbl)
    (hv : (s.val v).is_nan = true) (hd : d.is_nan = true) :
    (resultVal (fmin_vd s v d) = Dbl.nan ∧
      (fmin_vd s v d).2 = ⟨s.size⟩ ∧
      (chain ops ((fmin_vd s v d).1.set_adj (fmin_vd s v d).2 g) (fmin_vd s v d).2).adjOf v
        = Dbl.nan ∧
      grad ops (fmin_vd s v d).1 (fmin_vd s v d).2
        = sweep ops s.size
            (chain ops ((fmin_vd s v d).1.set_adj (fmin_vd s v d).2 (Dbl.fin 1))
              (fmin_vd s v d).2)) ∧
    (resultVal (fmin_dv s d v) = Dbl.nan ∧
      (fmin_dv s d v).2 = ⟨s.size⟩ ∧
      (chain ops ((fmin_dv s d v).1.set_adj (fmin_dv s d v).2 g) (fmin_dv s d v).2).adjOf v
        = Dbl.nan ∧
      grad ops (fmin_dv s d v).1 (fmin_dv s d v).2
        = sweep ops s.size
            (chain ops ((fmin_dv s d v).1.set_adj (fmin_dv s d v).2 (Dbl.fin 1))
              (fmin_dv s d v).2)) := by
  have h1 : fmin_vd s v d = s.new_vari ⟨Dbl.nan,
      Chain.callback (fun adj => Function.update adj v.vi_ Dbl.nan)⟩ := by
    simp [fmin_vd, hv, hd, ChainableStack.make_callback_var, Dbl.NOT_A_NUMBER]
  have h2 : fmin_dv s d v = s.new_vari ⟨Dbl.nan,
      Chain.callback (fun adj => Function.update adj v.vi_ Dbl.nan)⟩ := by
    simp [fmin_dv, hv, hd, ChainableStack.make_callback_var, Dbl.NOT_A_NUMBER]
  have key : resultVal (s.new_vari ⟨Dbl.nan,
        Chain.callback (fun adj => Function.update adj v.vi_ Dbl.nan)⟩) = Dbl.nan ∧
      (s.new_vari ⟨Dbl.nan,
        Chain.callback (fun adj => Function.update adj v.vi_ Dbl.nan)⟩).2 = ⟨s.size⟩ ∧
      (chain ops ((s.new_vari ⟨Dbl.nan,
        Chain.callback (fun adj => Function.update adj v.vi_ Dbl.nan)⟩).1.set_adj
          (s.new_vari ⟨Dbl.nan,
            Chain.callback (fun adj => Function.update adj v.vi_ Dbl.nan)⟩).2 g)
        (s.new_vari ⟨Dbl.nan,
          Chain.callback (fun adj => Function.update adj v.vi_ Dbl.nan)⟩).2).adjOf v
        = Dbl.nan := by
    refine ⟨?_, rfl, ?_⟩
    · simp only [resultVal]
      rw [ChainableStack.val_new_vari_self]
    · unfold chain
      rw [node_set_adj, ChainableStack.node_new_vari_self]
      simp [ChainableStack.adjOf, Chain.run]
  rw [h1, h2]
  exact ⟨⟨key.1, key.2.1, key.2.2, grad_new_vari ops s _⟩,
    ⟨key.1, key.2.1, key.2.2, grad_new_vari ops s _⟩⟩

/-- Witness of `fmin_mixed_both_nan`: a NaN variable on a fresh tape against a NaN
double. -/
theorem fmin_mixed_both_nan_witness :
    resultVal (fmin_vd ⟨[⟨Dbl.nan, Chain.leaf⟩], fun _ => Dbl.fin 0⟩ ⟨0⟩ Dbl.nan) = Dbl.nan ∧
    (grad exactOps (fmin_vd ⟨[⟨Dbl.nan, Chain.leaf⟩], fun _ => Dbl.fin 0⟩ ⟨0⟩ Dbl.nan).1
      (fmin_vd ⟨[⟨Dbl.nan, Chain.leaf⟩], fun _ => Dbl.fin 0⟩ ⟨0⟩ Dbl.nan).2).adjOf ⟨0⟩
      = Dbl.nan ∧
    (grad exactOps (fmin_dv ⟨[⟨Dbl.nan, Chain.leaf⟩], fun _ => Dbl.fin 0⟩ Dbl.nan ⟨0⟩).1
      (fmin_dv ⟨[⟨Dbl.nan, Chain.leaf⟩], fun _ => Dbl.fin 0⟩ Dbl.nan ⟨0⟩).2).adjOf ⟨0⟩
      = Dbl.nan :=
  have h := fmin_mixed_both_nan exactOps ⟨[⟨Dbl.nan, Chain.leaf⟩], fun _ => Dbl.fin 0⟩ ⟨0⟩
    Dbl.nan (Dbl.fin 0) rfl rfl
  ⟨h.1.1, by rw [h.1.2.2.2]; rfl, by rw [h.2.2.2.2]; rfl⟩

/-! ## `estimate_with_err_check` -/

theorem list_set_same {α : Type} (l : List α) (i : Nat) (x : α) (h : l[i]? = some x) :
    l.set i x = l := by
  induction l generalizing i with
  | nil => rfl
  | cons a t ih =>
    cases i with
    | zero =>
      simp only [List.getElem?_cons_zero, Option.some.injEq] at h
      simp [h]
    | succ j =>
      simp only [List.getElem?_cons_succ] at h
      simp [ih j h]

theorem assign_err_scalar (NestedIndex : Nat) (x err : Dbl) :
    assign_err NestedIndex (ErrArg.scalar x) err = ErrArg.scalar x := rfl

/-- On a pack of scalars the re-estimation runs on the arguments it started from, so the
result is the functor on the original arguments whether or not the check passes. -/
theorem estimate_with_err_check_scalars (ops : FloatOps) (m : LibM) (ErrIndex : Nat)
    (GradW7 : Bool) (NestedIndex : Nat) (LogResult : Bool) (functor : List ErrArg → Dbl)
    (err : Dbl) (args_tuple : List ErrArg)
    (h : ∀ arg ∈ args_tuple, ∃ x, arg = ErrArg.scalar x) :
    estimate_with_err_check ops m ErrIndex GradW7 NestedIndex LogResult functor err
      args_tuple = functor args_tuple := by
  unfold estimate_with_err_check
  simp only
  split
  · cases hg : args_tuple[ErrIndex]? with
    | none => rfl
    | some arg =>
      obtain ⟨x, hx⟩ := h arg (List.getElem?_mem hg)
      subst hx
      simp only [assign_err_scalar]
      congr 1
      exact list_set_same _ _ _ hg
  · rfl

/-- C10, the code at the functor that returns its error argument, the pack of six scalars
1.0, `err = 2.0`, `ErrIndex = 5`, `GradW7 = false`, `LogResult = false`: the check fails
(`fabs(1.0) < 2.0`) and `new_error` is 3.0, so the functor on the arguments with the
error argument replaced by `new_error` is 3.0; the code returns 1.0, the functor on the
unchanged arguments, because `assign_err` received the scalar by value. -/
theorem estimate_with_err_check_keeps_error (m : LibM) :
    (log_fabs m false (errorArgument sixOnes)).lt (Dbl.fin 2) = true ∧
    new_error exactOps m false (Dbl.fin 2) (log_fabs m false (errorArgument sixOnes))
      = Dbl.fin 3 ∧
    reestimate_documented exactOps m 5 false false errorArgument (Dbl.fin 2) sixOnes
      = Dbl.fin 3 ∧
    estimate_with_err_check exactOps m 5 false 0 false errorArgument (Dbl.fin 2) sixOnes
      = Dbl.fin 1 := by
  have h1 : log_fabs m false (errorArgument sixOnes) = Dbl.fin 1 := by
    simp [log_fabs, errorArgument, sixOnes, Dbl.fabs]
  have h2 : new_error exactOps m false (Dbl.fin 2) (Dbl.fin 1) = Dbl.fin 3 := by
    simp only [new_error, Dbl.is_inf, exactOps, Dbl.addExact, Dbl.toRat, Bool.false_eq_true,
      ↓reduceIte]
    norm_num
  refine ⟨?_, ?_, ?_, ?_⟩
  · rw [h1]
    simp [Dbl.lt, Dbl.ext]
  · rw [h1, h2]
  · unfold reestimate_documented
    rw [h1, h2]
    rfl
  · rw [estimate_with_err_check_scalars]
    · rfl
    · intro arg harg
      simp only [sixOnes, List.mem_cons, List.mem_singleton, List.not_mem_nil, or_false,
        or_self] at harg
      exact ⟨_, harg⟩

/-! ## `wiener5_lpdf` -/

theorem assign_all_constant (o : OperandsAndPartials) (K i : Nat) (x : Dbl) :
    (o.assign K i x).all_constant = o.all_constant := by
  unfold OperandsAndPartials.assign
  split <;> rfl

theorem body_log_density (ops : FloatOps) (m : LibM) (fns : Wiener5Fns)
    (y a t0 w v sv : Operand) (y_vec a_vec t0_vec w_vec v_vec sv_vec : Seq Dbl)
    (e1 e2 e3 e4 : Dbl) (st : LoopState) (i : Nat) :
    (wiener5_lpdf_body ops m fns y a t0 w v sv y_vec a_vec t0_vec w_vec v_vec sv_vec
      e1 e2 e3 e4 st i).log_density = st.log_density := rfl

theorem body_all_constant (ops : FloatOps) (m : LibM) (fns : Wiener5Fns)
    (y a t0 w v sv : Operand) (y_vec a_vec t0_vec w_vec v_vec sv_vec : Seq Dbl)
    (e1 e2 e3 e4 : Dbl) (st : LoopState) (i : Nat) :
    (wiener5_lpdf_body ops m fns y a t0 w v sv y_vec a_vec t0_vec w_vec v_vec sv_vec
      e1 e2 e3 e4 st i).ops_partials.all_constant = st.ops_partials.all_constant := by
  simp only [wiener5_lpdf_body]
  repeat' split
  all_goals simp only [assign_all_constant]

theorem loop_log_density (ops : FloatOps) (m : LibM) (fns : Wiener5Fns)
    (y a t0 w v sv : Operand) (y_vec a_vec t0_vec w_vec v_vec sv_vec : Seq Dbl)
    (e1 e2 e3 e4 : Dbl) (l : List Nat) (st : LoopState) :
    (l.foldl (wiener5_lpdf_body ops m fns y a t0 w v sv y_vec a_vec t0_vec w_vec v_vec
      sv_vec e1 e2 e3 e4) st).log_density = st.log_density := by
  induction l generalizing st with
  | nil => rfl
  | cons i l ih => rw [List.foldl_cons, ih, body_log_density]

theorem loop_all_constant (ops : FloatOps) (m : LibM) (fns : Wiener5Fns)
    (y a t0 w v sv : Operand) (y_vec a_vec t0_vec w_vec v_vec sv_vec : Seq Dbl)
    (e1 e2 e3 e4 : Dbl) (l : List Nat) (st : LoopState) :
    (l.foldl (wiener5_lpdf_body ops m fns y a t0 w v sv y_vec a_vec t0_vec w_vec v_vec
      sv_vec e1 e2 e3 e4) st).ops_partials.all_constant = st.ops_partials.all_constant := by
  induction l generalizing st with
  | nil => rfl
  | cons i l ih => rw [List.foldl_cons, ih, body_all_constant]

theorem build_value (o : OperandsAndPartials) (s : ChainableStack) (value : Dbl) :
    (Outcome.returned (o.build s value).1 (o.build s value).2).value? = some value := by
  unfold OperandsAndPartials.build
  split
  · rfl
  · simp only [Outcome.value?]
    rw [ChainableStack.val_new_vari_self]

theorem return_zero_value (s : ChainableStack) (xs : List Operand) :
    (return_zero s xs).value? = some (Dbl.fin 0) := by
  unfold return_zero
  split
  · rfl
  · simp only [Outcome.value?, ChainableStack.var_double]
    rw [ChainableStack.val_new_vari_self]

theorem value_zero_ite (c : Prop) [Decidable c] (p q : Outcome)
    (hp : p.value? = none ∨ p.value? = some (Dbl.fin 0))
    (hq : q.value? = none ∨ q.value? = some (Dbl.fin 0)) :
    (if c then p else q).value? = none ∨ (if c then p else q).value? = some (Dbl.fin 0) := by
  split <;> assumption

/-- Every value `wiener5_lpdf` returns is 0.0: the variable `log_density` passed to
`build` is never assigned after its initialisation. -/
theorem wiener5_lpdf_value (ops : FloatOps) (m : LibM) (fns : Wiener5Fns)
    (include_summand : Bool) (s : ChainableStack) (y a t0 w v sv : Operand)
    (precision_derivatives : Dbl) :
    (wiener5_lpdf ops m fns include_summand s y a t0 w v sv precision_derivatives).value?
        = none ∨
    (wiener5_lpdf ops m fns include_summand s y a t0 w v sv precision_derivatives).value?
        = some (Dbl.fin 0) := by
  unfold wiener5_lpdf
  refine value_zero_ite _ _ _ (Or.inr (return_zero_value _ _)) ?_
  refine value_zero_ite _ _ _ (Or.inr (return_zero_value _ _)) ?_
  refine value_zero_ite _ _ _ (Or.inl rfl) ?_
  refine value_zero_ite _ _ _ (Or.inl rfl) ?_
  refine value_zero_ite _ _ _ (Or.inl rfl) ?_
  refine value_zero_ite _ _ _ (Or.inl rfl) ?_
  refine value_zero_ite _ _ _ (Or.inl rfl) ?_
  refine value_zero_ite _ _ _ (Or.inl rfl) ?_
  refine value_zero_ite _ _ _ (Or.inl rfl) ?_
  refine value_zero_ite _ _ _ (Or.inl rfl) ?_
  refine value_zero_ite _ _ _ (Or.inl rfl) ?_
  refine value_zero_ite _ _ _ (Or.inl rfl) ?_
  refine value_zero_ite _ _ _ (Or.inl rfl) ?_
  right
  rw [build_value, loop_log_density]

theorem build_all_constant (o : OperandsAndPartials) (s : ChainableStack) (value : Dbl)
    (h : o.all_constant = true) : o.build s value = (s, Result.plain value) := by
  unfold OperandsAndPartials.build
  rw [if_pos h]

/-- C8, the code at the scalar arguments `y = 1`, `a = 1`, `t0 = 0`, `w = 0.5`, `v = 0`,
`sv = 0` (plain doubles, summand included): the arguments pass validation and the call
returns the plain value 0.0, whatever `wiener5_density` computes, where the documented
value is `0.0 + wiener5_density(1 - 0, 1, 0, 0.5, 0, log(1e-12))`.  More generally every
value the function returns is 0.0. -/
theorem wiener5_lpdf_returns_zero (ops : FloatOps) (m : LibM) (fns : Wiener5Fns)
    (s : ChainableStack) (precision_derivatives : Dbl) :
    wiener5_lpdf ops m fns true s (Operand.data (Seq.scalar (Dbl.fin 1)))
        (Operand.data (Seq.scalar (Dbl.fin 1))) (Operand.data (Seq.scalar (Dbl.fin 0)))
        (Operand.data (Seq.scalar (Dbl.fin (1 / 2)))) (Operand.data (Seq.scalar (Dbl.fin 0)))
        (Operand.data (Seq.scalar (Dbl.fin 0))) precision_derivatives
      = Outcome.returned s (Result.plain (Dbl.fin 0)) ∧
    log_density_documented ops m fns (Seq.scalar (Dbl.fin 1)) (Seq.scalar (Dbl.fin 1))
        (Seq.scalar (Dbl.fin 0)) (Seq.scalar (Dbl.fin (1 / 2))) (Seq.scalar (Dbl.fin 0))
        (Seq.scalar (Dbl.fin 0)) 1
      = ops.add (Dbl.fin 0)
          (fns.wiener5_density (ops.sub (Dbl.fin 1) (Dbl.fin 0)) (Dbl.fin 1) (Dbl.fin 0)
            (Dbl.fin (1 / 2)) (Dbl.fin 0) (m.log (Dbl.fin (1 / 1000000000000)))) ∧
    (∀ (include_summand : Bool) (y a t0 w v sv : Operand),
      (wiener5_lpdf ops m fns include_summand s y a t0 w v sv
          precision_derivatives).value? = none ∨
      (wiener5_lpdf ops m fns include_summand s y a t0 w v sv
          precision_derivatives).value? = some (Dbl.fin 0)) := by
  refine ⟨?_, ?_, fun incl y a t0 w v sv =>
    wiener5_lpdf_value ops m fns incl s y a t0 w v sv precision_derivatives⟩
  · unfold wiener5_lpdf
    rw [if_neg (by simp [size_zero, Operand.size, Seq.size])]
    rw [if_neg (by simp)]
    rw [if_neg (by simp [check_consistent_sizes, Operand.is_vector, Seq.is_vector])]
    simp only [Operand.value_of]
    rw [if_neg (by simp [check_positive_finite, Seq.elems, Dbl.gt, Dbl.lt, Dbl.ext,
      Dbl.is_finite])]
    rw [if_neg (by simp [check_positive_finite, Seq.elems, Dbl.gt, Dbl.lt, Dbl.ext,
      Dbl.is_finite])]
    rw [if_neg (by simp [check_nonnegative, Seq.elems, Dbl.ge, Dbl.le, Dbl.ext])]
    rw [if_neg (by simp [check_finite, Seq.elems, Dbl.is_finite])]
    rw [if_neg (by simp [check_less, Seq.elems, Dbl.lt, Dbl.ext]; norm_num)]
    rw [if_neg (by simp [check_greater, Seq.elems, Dbl.gt, Dbl.lt, Dbl.ext])]
    rw [if_neg (by simp [check_finite, Seq.elems, Dbl.is_finite])]
    rw [if_neg (by simp [check_nonnegative, Seq.elems, Dbl.ge, Dbl.le, Dbl.ext])]
    rw [if_neg (by simp [check_finite, Seq.elems, Dbl.is_finite])]
    rw [if_neg (by simp [max_size, Operand.size, Seq.size, Seq.get, Dbl.le, Dbl.ext])]
    rw [loop_log_density, build_all_constant]
    rw [loop_all_constant]
    rfl
  · simp [log_density_documented, Seq.get, List.range_succ]

theorem any_or_any {α : Type} (l : List α) (f g : α → Bool) :
    l.any (fun x => f x || g x) = (l.any f || l.any g) := by
  induction l with
  | nil => rfl
  | cons x t ih =>
    simp only [List.any_cons, ih]
    cases f x <;> cases g x <;> cases t.any f <;> cases t.any g <;> rfl

theorem any_not_eq_not_all {α : Type} (l : List α) (f : α → Bool) :
    l.any (fun x => !f x) = !l.all f := by
  induction l with
  | nil => rfl
  | cons x t ih =>
    simp only [List.any_cons, List.all_cons, ih]
    cases f x <;> cases t.all f <;> rfl

theorem Dbl.negative_or_not_finite (x : Dbl) :
    (x.lt (Dbl.fin 0) || !x.is_finite) = (!x.ge (Dbl.fin 0) || !x.is_finite) := by
  cases x with
  | nan => rfl
  | inf s => cases s <;> simp [Dbl.is_finite]
  | negZero => simp [Dbl.lt, Dbl.ge, Dbl.le, Dbl.ext, Dbl.is_finite]
  | fin q =>
    simp only [Dbl.lt, Dbl.ge, Dbl.le, Dbl.ext, Dbl.is_finite, WithBot.coe_lt_coe,
      WithTop.coe_lt_coe, WithBot.coe_le_coe, WithTop.coe_le_coe, Bool.not_true,
      Bool.or_false]
    by_cases h : q < 0
    · simp [h]
    · simp [h, not_lt.mp h]

theorem Dbl.not_in_unit_interval (x : Dbl) :
    (!(x.gt (Dbl.fin 0) && x.lt (Dbl.fin 1))) = (!x.lt (Dbl.fin 1) || !x.gt (Dbl.fin 0)) := by
  cases x.gt (Dbl.fin 0) <;> cases x.lt (Dbl.fin 1) <;> rfl

/-- The violations the specification lists are those the checks of the code reject. -/
theorem domain_violation_eq_checks (y a t0 w v sv : Seq Dbl) (N : Nat) :
    domain_violation y a t0 w v sv N
      = (!check_positive_finite y || !check_positive_finite a ||
          (!check_nonnegative t0 || !check_finite t0) ||
          (!check_less w (Dbl.fin 1) || !check_greater w (Dbl.fin 0)) ||
          !check_finite v || (!check_nonnegative sv || !check_finite sv) ||
          (List.range N).any (fun i => (y.get Dbl.nan i).le (t0.get Dbl.nan i))) := by
  have hneg : ∀ l : List Dbl, l.any (fun x => x.lt (Dbl.fin 0) || !x.is_finite)
      = (!l.all (fun x => x.ge (Dbl.fin 0)) || !l.all Dbl.is_finite) := by
    intro l
    rw [← any_not_eq_not_all, ← any_not_eq_not_all, ← any_or_any]
    congr 1
    funext x
    exact Dbl.negative_or_not_finite x
  have hunit : ∀ l : List Dbl, l.any (fun x => !(x.gt (Dbl.fin 0) && x.lt (Dbl.fin 1)))
      = (!l.all (fun x => x.lt (Dbl.fin 1)) || !l.all (fun x => x.gt (Dbl.fin 0))) := by
    intro l
    rw [← any_not_eq_not_all, ← any_not_eq_not_all, ← any_or_any]
    congr 1
    funext x
    exact Dbl.not_in_unit_interval x
  unfold domain_violation check_positive_finite check_nonnegative check_finite check_less
    check_greater
  rw [hneg, hneg, hunit, any_not_eq_not_all, any_not_eq_not_all, any_not_eq_not_all]

theorem threw_flag_ite (c : Prop) [Decidable c] (p q : Outcome)
    (hp : ∀ e b, p = Outcome.threw e b → b = false)
    (hq : ∀ e b, q = Outcome.threw e b → b = false) :
    ∀ e b, (if c then p else q) = Outcome.threw e b → b = false := by
  split <;> assumption

theorem threw_flag_threw (e0 : Error) :
    ∀ e b, Outcome.threw e0 false = Outcome.threw e b → b = false := by
  intro e b h
  injection h with _ hb
  exact hb.symm

theorem threw_flag_return_zero (s : ChainableStack) (xs : List Operand) :
    ∀ e b, return_zero s xs = Outcome.threw e b → b = false := by
  intro e b h
  unfold return_zero at h
  split at h <;> cases h

/-- Whatever `wiener5_lpdf` throws, it throws before the aggregator is constructed. -/
theorem wiener5_lpdf_threw_flag (ops : FloatOps) (m : LibM) (fns : Wiener5Fns)
    (include_summand : Bool) (s : ChainableStack) (y a t0 w v sv : Operand)
    (precision_derivatives : Dbl) :
    ∀ e b, wiener5_lpdf ops m fns include_summand s y a t0 w v sv precision_derivatives
      = Outcome.threw e b → b = false := by
  unfold wiener5_lpdf
  refine threw_flag_ite _ _ _ (threw_flag_return_zero _ _) ?_
  refine threw_flag_ite _ _ _ (threw_flag_return_zero _ _) ?_
  refine threw_flag_ite _ _ _ (threw_flag_threw _) ?_
  refine threw_flag_ite _ _ _ (threw_flag_threw _) ?_
  refine threw_flag_ite _ _ _ (threw_flag_threw _) ?_
  refine threw_flag_ite _ _ _ (threw_flag_threw _) ?_
  refine threw_flag_ite _ _ _ (threw_flag_threw _) ?_
  refine threw_flag_ite _ _ _ (threw_flag_threw _) ?_
  refine threw_flag_ite _ _ _ (threw_flag_threw _) ?_
  refine threw_flag_ite _ _ _ (threw_flag_threw _) ?_
  refine threw_flag_ite _ _ _ (threw_flag_threw _) ?_
  refine threw_flag_ite _ _ _ (threw_flag_threw _) ?_
  refine threw_flag_ite _ _ _ (threw_flag_threw _) ?_
  intro e b h
  cases h

/-- The validation of `wiener5_lpdf` as one condition: past the size checks, the call
throws a domain error exactly when one of the checks of the code rejects. -/
theorem wiener5_lpdf_threw_iff_checks (ops : FloatOps) (m : LibM) (fns : Wiener5Fns)
    (s : ChainableStack) (y a t0 w v sv : Operand) (precision_derivatives : Dbl)
    (hsize : size_zero [y, a, t0, w, v, sv] = false)
    (hcons : check_consistent_sizes [y, a, v, w, t0, sv] = true) :
    (∃ b, wiener5_lpdf ops m fns true s y a t0 w v sv precision_derivatives
        = Outcome.threw Error.domain_error b) ↔
      (!check_positive_finite (y.value_of s) || !check_positive_finite (a.value_of s) ||
          (!check_nonnegative (t0.value_of s) || !check_finite (t0.value_of s)) ||
          (!check_less (w.value_of s) (Dbl.fin 1) ||
            !check_greater (w.value_of s) (Dbl.fin 0)) ||
          !check_finite (v.value_of s) ||
          (!check_nonnegative (sv.value_of s) || !check_finite (sv.value_of s)) ||
          (List.range (max_size [y, t0])).any
            (fun i => ((y.value_of s).get Dbl.nan i).le ((t0.value_of s).get Dbl.nan i)))
        = true := by
  unfold wiener5_lpdf
  rw [if_neg (by simp [hsize]), if_neg (by simp), if_neg (by simp [hcons])]
  dsimp only
  generalize check_positive_finite (y.value_of s) = c1
  generalize check_positive_finite (a.value_of s) = c2
  generalize check_nonnegative (t0.value_of s) = c3
  generalize check_finite (t0.value_of s) = c4
  generalize check_less (w.value_of s) (Dbl.fin 1) = c5
  generalize check_greater (w.value_of s) (Dbl.fin 0) = c6
  generalize check_finite (v.value_of s) = c7
  generalize check_nonnegative (sv.value_of s) = c8
  generalize check_finite (sv.value_of s) = c9
  generalize (List.range (max_size [y, t0])).any
    (fun i => ((y.value_of s).get Dbl.nan i).le ((t0.value_of s).get Dbl.nan i)) = c10
  cases c1
  · simp
  cases c2
  · simp
  cases c3
  · simp
  cases c4
  · simp
  cases c5
  · simp
  cases c6
  · simp
  cases c7
  · simp
  cases c8
  · simp
  cases c9
  · simp
  cases c10
  · simp
  · simp

theorem threw_domain_ite (c : Prop) [Decidable c] (p q : Outcome)
    (hp : ∀ e b, p = Outcome.threw e b → e = Error.domain_error)
    (hq : ∀ e b, q = Outcome.threw e b → e = Error.domain_error) :
    ∀ e b, (if c then p else q) = Outcome.threw e b → e = Error.domain_error := by
  split <;> assumption

theorem threw_domain_threw :
    ∀ e b, Outcome.threw Error.domain_error false = Outcome.threw e b →
      e = Error.domain_error := by
  intro e b h
  injection h with he _
  exact he.symm

/-- Past the size checks, the only exception `wiener5_lpdf` throws is a domain error. -/
theorem wiener5_lpdf_threw_domain (ops : FloatOps) (m : LibM) (fns : Wiener5Fns)
    (s : ChainableStack) (y a t0 w v sv : Operand) (precision_derivatives : Dbl)
    (hsize : size_zero [y, a, t0, w, v, sv] = false)
    (hcons : check_consistent_sizes [y, a, v, w, t0, sv] = true) :
    ∀ e b, wiener5_lpdf ops m fns true s y a t0 w v sv precision_derivatives
      = Outcome.threw e b → e = Error.domain_error := by
  unfold wiener5_lpdf
  rw [if_neg (by simp [hsize]), if_neg (by simp), if_neg (by simp [hcons])]
  refine threw_domain_ite _ _ _ threw_domain_threw ?_
  refine threw_domain_ite _ _ _ threw_domain_threw ?_
  refine threw_domain_ite _ _ _ threw_domain_threw ?_
  refine threw_domain_ite _ _ _ threw_domain_threw ?_
  refine threw_domain_ite _ _ _ threw_domain_threw ?_
  refine threw_domain_ite _ _ _ threw_domain_threw ?_
  refine threw_domain_ite _ _ _ threw_domain_threw ?_
  refine threw_domain_ite _ _ _ threw_domain_threw ?_
  refine threw_domain_ite _ _ _ threw_domain_threw ?_
  refine threw_domain_ite _ _ _ threw_domain_threw ?_
  intro e b h
  cases h

/-- C9: for non-empty, size-consistent arguments and an included summand, `wiener5_lpdf`
raises a domain error if and only if, on the values of the arguments, some `y` is not
positive and finite, some `a` is not positive and finite, some `t0` is negative or not
finite, some `w` is not strictly between 0 and 1, some `v` is not finite, some `sv` is
negative or not finite, or `y_i <= t0_i` at some index (equality included); it raises no
other exception, and every exception is raised before the operands-and-partials
aggregator is constructed. -/
theorem wiener5_lpdf_domain_error_iff (ops : FloatOps) (m : LibM) (fns : Wiener5Fns)
    (s : ChainableStack) (y a t0 w v sv : Operand) (precision_derivatives : Dbl)
    (hsize : size_zero [y, a, t0, w, v, sv] = false)
    (hcons : check_consistent_sizes [y, a, v, w, t0, sv] = true) :
    ((∃ b, wiener5_lpdf ops m fns true s y a t0 w v sv precision_derivatives
        = Outcome.threw Error.domain_error b) ↔
      domain_violation (y.value_of s) (a.value_of s) (t0.value_of s) (w.value_of s)
        (v.value_of s) (sv.value_of s) (max_size [y, t0]) = true) ∧
    (∀ e b, wiener5_lpdf ops m fns true s y a t0 w v sv precision_derivatives
        = Outcome.threw e b → e = Error.domain_error ∧ b = false) := by
  refine ⟨?_, fun e b h => ⟨?_, ?_⟩⟩
  · rw [domain_violation_eq_checks]
    exact wiener5_lpdf_threw_iff_checks ops m fns s y a t0 w v sv precision_derivatives
      hsize hcons
  · exact wiener5_lpdf_threw_domain ops m fns s y a t0 w v sv precision_derivatives
      hsize hcons e b h
  · exact wiener5_lpdf_threw_flag ops m fns true s y a t0 w v sv precision_derivatives e b h

/-- Witness of `wiener5_lpdf_domain_error_iff`: the scalar arguments `y = 1`, `a = 1`,
`t0 = 1`, `w = 0.5`, `v = 0`, `sv = 0` pass every elementwise check and have `y == t0`, and
the call raises a domain error. -/
theorem wiener5_lpdf_domain_error_iff_witness :
    ∃ b, wiener5_lpdf exactOps sampleLibM sampleFns true emptyTape
        (Operand.data (Seq.scalar (Dbl.fin 1))) (Operand.data (Seq.scalar (Dbl.fin 1)))
        (Operand.data (Seq.scalar (Dbl.fin 1))) (Operand.data (Seq.scalar (Dbl.fin (1 / 2))))
        (Operand.data (Seq.scalar (Dbl.fin 0))) (Operand.data (Seq.scalar (Dbl.fin 0)))
        (Dbl.fin (1 / 10000))
      = Outcome.threw Error.domain_error b :=
  (wiener5_lpdf_domain_error_iff exactOps sampleLibM sampleFns emptyTape
    (Operand.data (Seq.scalar (Dbl.fin 1))) (Operand.data (Seq.scalar (Dbl.fin 1)))
    (Operand.data (Seq.scalar (Dbl.fin 1))) (Operand.data (Seq.scalar (Dbl.fin (1 / 2))))
    (Operand.data (Seq.scalar (Dbl.fin 0))) (Operand.data (Seq.scalar (Dbl.fin 0)))
    (Dbl.fin (1 / 10000))
    (by simp [size_zero, Operand.size, Seq.size])
    (by simp [check_consistent_sizes, Operand.is_vector, Seq.is_vector])).1.mpr
    (by simp [domain_violation, Operand.value_of, Seq.elems, Seq.get, max_size, Operand.size,
      Seq.size, Dbl.le, Dbl.ext])

/-! ## Number of evaluations in `estimate_with_err_check` -/

/-- C11: for every functor, tolerance and argument pack, `estimate_with_err_check`
evaluates the functor exactly once when the check passes (not `log_fabs_result < err`)
and exactly twice when it fails, hence never more than twice; the first evaluation is on
the arguments given, and the function is total: it returns the result of the last
evaluation. -/
theorem estimate_with_err_check_evaluations (ops : FloatOps) (m : LibM) (ErrIndex : Nat)
    (GradW7 : Bool) (NestedIndex : Nat) (LogResult : Bool) (functor : List ErrArg → Dbl)
    (err : Dbl) (args_tuple : List ErrArg) :
    (estimate_with_err_check_logged ops m ErrIndex GradW7 NestedIndex LogResult functor err
        args_tuple).2.length
      = (if (log_fabs m LogResult (functor args_tuple)).lt err then 2 else 1) ∧
    (estimate_with_err_check_logged ops m ErrIndex GradW7 NestedIndex LogResult functor err
        args_tuple).2.length ≤ 2 ∧
    (estimate_with_err_check_logged ops m ErrIndex GradW7 NestedIndex LogResult functor err
        args_tuple).2.head? = some args_tuple ∧
    (estimate_with_err_check_logged ops m ErrIndex GradW7 NestedIndex LogResult functor err
        args_tuple).1
      = estimate_with_err_check ops m ErrIndex GradW7 NestedIndex LogResult functor err
          args_tuple ∧
    ((estimate_with_err_check_logged ops m ErrIndex GradW7 NestedIndex LogResult functor err
        args_tuple).2.getLast?).map functor
      = some (estimate_with_err_check ops m ErrIndex GradW7 NestedIndex LogResult functor err
          args_tuple) := by
  unfold estimate_with_err_check_logged estimate_with_err_check
  cases h : (log_fabs m LogResult (functor args_tuple)).lt err <;>
    simp [h]

/-! ## Effect of `wiener5_lpdf` on the tape -/

theorem atMostOneNode_ite (s : ChainableStack) (c : Prop) [Decidable c] (p q : Outcome)
    (hp : AtMostOneNode s p) (hq : AtMostOneNode s q) :
    AtMostOneNode s (if c then p else q) := by
  split <;> assumption

theorem plainNoNode_ite (s : ChainableStack) (c : Prop) [Decidable c] (p q : Outcome)
    (hp : PlainNoNode s p) (hq : PlainNoNode s q) : PlainNoNode s (if c then p else q) := by
  split <;> assumption

theorem atMostOneNode_return_zero (s : ChainableStack) (xs : List Operand) :
    AtMostOneNode s (return_zero s xs) := by
  unfold return_zero
  split
  · exact Or.inr (Or.inl ⟨_, rfl⟩)
  · exact Or.inr (Or.inr ⟨_, _, rfl⟩)

theorem atMostOneNode_build (o : OperandsAndPartials) (s : ChainableStack) (value : Dbl) :
    AtMostOneNode s (Outcome.returned (o.build s value).1 (o.build s value).2) := by
  unfold OperandsAndPartials.build
  split
  · exact Or.inr (Or.inl ⟨_, rfl⟩)
  · exact Or.inr (Or.inr ⟨_, _, rfl⟩)

theorem atMostOneNode_nodes_added (s : ChainableStack) (o : Outcome)
    (h : AtMostOneNode s o) : o.nodes_added s ≤ 1 := by
  rcases h with ⟨e, b, h⟩ | ⟨r, h⟩ | ⟨v, r, h⟩
  · rw [h]
    exact Nat.zero_le 1
  · rw [h]
    simp [Outcome.nodes_added]
  · rw [h]
    simp [Outcome.nodes_added, ChainableStack.size_new_vari]

theorem wiener5_lpdf_atMostOneNode (ops : FloatOps) (m : LibM) (fns : Wiener5Fns)
    (include_summand : Bool) (s : ChainableStack) (y a t0 w v sv : Operand)
    (precision_derivatives : Dbl) :
    AtMostOneNode s
      (wiener5_lpdf ops m fns include_summand s y a t0 w v sv precision_derivatives) := by
  unfold wiener5_lpdf
  refine atMostOneNode_ite s _ _ _ (atMostOneNode_return_zero _ _) ?_
  refine atMostOneNode_ite s _ _ _ (atMostOneNode_return_zero _ _) ?_
  refine atMostOneNode_ite s _ _ _ (Or.inl ⟨_, _, rfl⟩) ?_
  refine atMostOneNode_ite s _ _ _ (Or.inl ⟨_, _, rfl⟩) ?_
  refine atMostOneNode_ite s _ _ _ (Or.inl ⟨_, _, rfl⟩) ?_
  refine atMostOneNode_ite s _ _ _ (Or.inl ⟨_, _, rfl⟩) ?_
  refine atMostOneNode_ite s _ _ _ (Or.inl ⟨_, _, rfl⟩) ?_
  refine atMostOneNode_ite s _ _ _ (Or.inl ⟨_, _, rfl⟩) ?_
  refine atMostOneNode_ite s _ _ _ (Or.inl ⟨_, _, rfl⟩) ?_
  refine atMostOneNode_ite s _ _ _ (Or.inl ⟨_, _, rfl⟩) ?_
  refine atMostOneNode_ite s _ _ _ (Or.inl ⟨_, _, rfl⟩) ?_
  refine atMostOneNode_ite s _ _ _ (Or.inl ⟨_, _, rfl⟩) ?_
  refine atMostOneNode_ite s _ _ _ (Or.inl ⟨_, _, rfl⟩) ?_
  exact atMostOneNode_build _ _ _

theorem plainNoNode_return_zero (s : ChainableStack) (xs : List Operand)
    (h : xs.all Operand.is_constant = true) : PlainNoNode s (return_zero s xs) := by
  unfold return_zero
  rw [if_pos h]
  exact Or.inr ⟨_, rfl⟩

theorem plainNoNode_build (o : OperandsAndPartials) (s : ChainableStack) (value : Dbl)
    (h : o.all_constant = true) :
    PlainNoNode s (Outcome.returned (o.build s value).1 (o.build s value).2) := by
  rw [build_all_constant o s value h]
  exact Or.inr ⟨_, rfl⟩

theorem wiener5_lpdf_plainNoNode (ops : FloatOps) (m : LibM) (fns : Wiener5Fns)
    (include_summand : Bool) (s : ChainableStack) (y a t0 w v sv : Seq Dbl)
    (precision_derivatives : Dbl) :
    PlainNoNode s
      (wiener5_lpdf ops m fns include_summand s (Operand.data y) (Operand.data a)
        (Operand.data t0) (Operand.data w) (Operand.data v) (Operand.data sv)
        precision_derivatives) := by
  unfold wiener5_lpdf
  refine plainNoNode_ite s _ _ _ (plainNoNode_return_zero _ _ rfl) ?_
  refine plainNoNode_ite s _ _ _ (plainNoNode_return_zero _ _ rfl) ?_
  refine plainNoNode_ite s _ _ _ (Or.inl ⟨_, _, rfl⟩) ?_
  refine plainNoNode_ite s _ _ _ (Or.inl ⟨_, _, rfl⟩) ?_
  refine plainNoNode_ite s _ _ _ (Or.inl ⟨_, _, rfl⟩) ?_
  refine plainNoNode_ite s _ _ _ (Or.inl ⟨_, _, rfl⟩) ?_
  refine plainNoNode_ite s _ _ _ (Or.inl ⟨_, _, rfl⟩) ?_
  refine plainNoNode_ite s _ _ _ (Or.inl ⟨_, _, rfl⟩) ?_
  refine plainNoNode_ite s _ _ _ (Or.inl ⟨_, _, rfl⟩) ?_
  refine plainNoNode_ite s _ _ _ (Or.inl ⟨_, _, rfl⟩) ?_
  refine plainNoNode_ite s _ _ _ (Or.inl ⟨_, _, rfl⟩) ?_
  refine plainNoNode_ite s _ _ _ (Or.inl ⟨_, _, rfl⟩) ?_
  refine plainNoNode_ite s _ _ _ (Or.inl ⟨_, _, rfl⟩) ?_
  refine plainNoNode_build _ _ _ ?_
  rw [loop_all_constant]
  rfl

/-- C13: a call of `wiener5_lpdf` adds at most one node to the tape: it throws (tape
untouched), or returns on the tape it was called on, or returns on that tape extended by
exactly one node, the earlier nodes and adjoints being kept; the functions it calls for
the densities and gradients take and return plain doubles.  When every argument is
plain, it throws or returns a plain number on the untouched tape. -/
theorem wiener5_lpdf_tape_effect (ops : FloatOps) (m : LibM) (fns : Wiener5Fns)
    (include_summand : Bool) (s : ChainableStack) (precision_derivatives : Dbl) :
    (∀ y a t0 w v sv : Operand,
      ((∃ e b, wiener5_lpdf ops m fns include_summand s y a t0 w v sv
            precision_derivatives = Outcome.threw e b) ∨
        (∃ r, wiener5_lpdf ops m fns include_summand s y a t0 w v sv
            precision_derivatives = Outcome.returned s r) ∨
        (∃ node r, wiener5_lpdf ops m fns include_summand s y a t0 w v sv
            precision_derivatives
          = Outcome.returned
              ⟨s.var_stack_ ++ [node], Function.update s.adj s.size (Dbl.fin 0)⟩ r)) ∧
      (wiener5_lpdf ops m fns include_summand s y a t0 w v sv
          precision_derivatives).nodes_added s ≤ 1) ∧
    (∀ y a t0 w v sv : Seq Dbl,
      (∃ e b, wiener5_lpdf ops m fns include_summand s (Operand.data y) (Operand.data a)
          (Operand.data t0) (Operand.data w) (Operand.data v) (Operand.data sv)
          precision_derivatives = Outcome.threw e b) ∨
      (∃ x, wiener5_lpdf ops m fns include_summand s (Operand.data y) (Operand.data a)
          (Operand.data t0) (Operand.data w) (Operand.data v) (Operand.data sv)
          precision_derivatives = Outcome.returned s (Result.plain x))) :=
  ⟨fun y a t0 w v sv =>
    ⟨wiener5_lpdf_atMostOneNode ops m fns include_summand s y a t0 w v sv
        precision_derivatives,
      atMostOneNode_nodes_added s _
        (wiener5_lpdf_atMostOneNode ops m fns include_summand s y a t0 w v sv
          precision_derivatives)⟩,
    fun y a t0 w v sv =>
      wiener5_lpdf_plainNoNode ops m fns include_summand s y a t0 w v sv
        precision_derivatives⟩

/-! ## The partials of `y` and `t0` in `wiener5_lpdf` -/

/-- Over the reals the two branches of `wiener5_compute_error_term` are one formula: the
branch for `sv = 0` is the value of the other branch at `sv = 0`. -/
theorem wiener5_compute_error_term_eq (y a v w sv : ℝ) :
    wiener5_compute_error_term Real.log y a v w sv
      = (sv * sv * ((a * (1 - w)) * (a * (1 - w))) - 2 * a * (-v) * (1 - w) - (-v) * (-v) * y)
          / 2 / (1 + sv * sv * y) - 2 * Real.log a - 1 / 2 * Real.log (1 + sv * sv * y) := by
  unfold wiener5_compute_error_term square
  by_cases h : sv = 0
  · subst h
    simp
  · simp [h]

theorem one_plus_svsqr_y_pos (y sv : ℝ) (hy : 0 < y) : 0 < 1 + sv * sv * y := by
  have : 0 ≤ sv * sv * y := mul_nonneg (mul_self_nonneg sv) hy.le
  linarith

theorem wiener5_grad_sv_hasDerivAt (dn : ℝ → ℝ → ℝ → ℝ → ℝ → ℝ → ℝ)
    (y a v w sv err : ℝ) (hy : 0 < y) :
    HasDerivAt (fun s => wiener5_compute_error_term Real.log y a v w s)
      (wiener5_grad_sv false dn y a v w sv err) sv := by
  have hD0 : (1 + sv * sv * y) ≠ 0 := (one_plus_svsqr_y_pos y sv hy).ne'
  have hfun : (fun s => wiener5_compute_error_term Real.log y a v w s)
      = fun s => (s * s * ((a * (1 - w)) * (a * (1 - w))) - 2 * a * (-v) * (1 - w)
          - (-v) * (-v) * y) / 2 / (1 + s * s * y) - 2 * Real.log a
          - 1 / 2 * Real.log (1 + s * s * y) := funext (wiener5_compute_error_term_eq y a v w)
  rw [hfun]
  have hid : HasDerivAt (fun s : ℝ => s) 1 sv := hasDerivAt_id sv
  have hsq : HasDerivAt (fun s : ℝ => s * s) (1 * sv + sv * 1) sv := hid.mul hid
  have hD : HasDerivAt (fun s : ℝ => 1 + s * s * y) ((1 * sv + sv * 1) * y) sv :=
    (hsq.mul_const y).const_add 1
  have hN : HasDerivAt
      (fun s : ℝ => (s * s * ((a * (1 - w)) * (a * (1 - w))) - 2 * a * (-v) * (1 - w)
          - (-v) * (-v) * y) / 2)
      ((1 * sv + sv * 1) * ((a * (1 - w)) * (a * (1 - w))) / 2) sv :=
    (((hsq.mul_const _).sub_const _).sub_const _).div_const 2
  have hq := hN.div hD hD0
  have hlog := (hD.log hD0).const_mul (1 / 2 : ℝ)
  have h := (hq.sub_const (2 * Real.log a)).sub hlog
  convert h using 1
  unfold wiener5_grad_sv square
  simp only [Bool.false_eq_true, if_false]
  field_simp
  ring

/-- C15: over the reals, for `y > 0` and all `a`, `v_value`, `w_value`, `sv` (in
particular `a > 0`, `sv >= 0`), `wiener5_grad_v<WrtLog = false>(y, a, v_value, w_value,
sv)` is the derivative with respect to `v_value` of
`wiener5_compute_error_term(y, a, v_value, w_value, sv)`. -/
theorem wiener5_grad_v_is_derivative (dn : ℝ → ℝ → ℝ → ℝ → ℝ → ℝ → ℝ)
    (y a v w sv err : ℝ) (hy : 0 < y) :
    HasDerivAt (fun x => wiener5_compute_error_term Real.log y a x w sv)
      (wiener5_grad_v false dn y a v w sv err) v := by
  have hD0 : (1 + sv * sv * y) ≠ 0 := (one_plus_svsqr_y_pos y sv hy).ne'
  have hfun : (fun x => wiener5_compute_error_term Real.log y a x w sv)
      = fun x => (sv * sv * ((a * (1 - w)) * (a * (1 - w))) - 2 * a * (-x) * (1 - w)
          - (-x) * (-x) * y) / 2 / (1 + sv * sv * y) - 2 * Real.log a
          - 1 / 2 * Real.log (1 + sv * sv * y) :=
    funext (fun x => wiener5_compute_error_term_eq y a x w sv)
  rw [hfun]
  have hneg : HasDerivAt (fun x : ℝ => -x) (-1) v := (hasDerivAt_id v).neg
  have h1 : HasDerivAt (fun x : ℝ => 2 * a * (-x) * (1 - w)) (2 * a * (-1) * (1 - w)) v :=
    (hneg.const_mul (2 * a)).mul_const (1 - w)
  have h2 : HasDerivAt (fun x : ℝ => (-x) * (-x) * y) (((-1) * (-v) + (-v) * (-1)) * y) v :=
    (hneg.mul hneg).mul_const y
  have h := (((((h1.const_sub (sv * sv * ((a * (1 - w)) * (a * (1 - w))))).sub h2).div_const
    2).div_const (1 + sv * sv * y)).sub_const (2 * Real.log a)).sub_const
      (1 / 2 * Real.log (1 + sv * sv * y))
  convert h using 1
  unfold wiener5_grad_v square
  by_cases hsv : sv = 0
  · subst hsv
    simp
    ring
  · simp only [Bool.false_eq_true, if_false, ne_eq, hsv, not_false_eq_true, if_true]
    field_simp
    ring

/-- C16: over the reals, for `y > 0` and all `a`, `v_value`, `w_value`, `sv` (in
particular `a > 0`), `wiener5_density_part_one<GradA = false, GradT = true>(y, a,
v_value, w_value, sv)` is the derivative with respect to `y` of
`wiener5_compute_error_term(y, a, v_value, w_value, sv)`. -/
theorem wiener5_density_part_one_is_derivative_y (y a v w sv : ℝ) (hy : 0 < y) :
    HasDerivAt (fun t => wiener5_compute_error_term Real.log t a v w sv)
      (wiener5_density_part_one false true y a v w sv) y := by
  have hD0 : (1 + sv * sv * y) ≠ 0 := (one_plus_svsqr_y_pos y sv hy).ne'
  have hfun : (fun t => wiener5_compute_error_term Real.log t a v w sv)
      = fun t => (sv * sv * ((a * (1 - w)) * (a * (1 - w))) - 2 * a * (-v) * (1 - w)
          - (-v) * (-v) * t) / 2 / (1 + sv * sv * t) - 2 * Real.log a
          - 1 / 2 * Real.log (1 + sv * sv * t) :=
    funext (fun t => wiener5_compute_error_term_eq t a v w sv)
  rw [hfun]
  have hid : HasDerivAt (fun t : ℝ => t) 1 y := hasDerivAt_id y
  have hD : HasDerivAt (fun t : ℝ => 1 + sv * sv * t) (sv * sv * 1) y :=
    (hid.const_mul (sv * sv)).const_add 1
  have hN : HasDerivAt
      (fun t : ℝ => (sv * sv * ((a * (1 - w)) * (a * (1 - w))) - 2 * a * (-v) * (1 - w)
          - (-v) * (-v) * t) / 2)
      (-((-v) * (-v) * 1) / 2) y :=
    ((hid.const_mul ((-v) * (-v))).const_sub _).div_const 2
  have h := ((hN.div hD hD0).sub_const (2 * Real.log a)).sub
    ((hD.log hD0).const_mul (1 / 2 : ℝ))
  convert h using 1
  unfold wiener5_density_part_one square
  by_cases hsv : sv = 0
  · subst hsv
    simp
    ring
  · simp only [Bool.false_eq_true, if_false, if_true, ne_eq, hsv, not_false_eq_true]
    field_simp
    ring

theorem wiener5_density_part_one_hasDerivAt_a (y a v w sv : ℝ) (hy : 0 < y) :
    HasDerivAt (fun x => wiener5_compute_error_term Real.log y x v w sv + 2 * Real.log x)
      (wiener5_density_part_one true false y a v w sv) a := by
  have hD0 : (1 + sv * sv * y) ≠ 0 := (one_plus_svsqr_y_pos y sv hy).ne'
  have hfun : (fun x => wiener5_compute_error_term Real.log y x v w sv + 2 * Real.log x)
      = fun x => (sv * sv * ((x * (1 - w)) * (x * (1 - w))) - 2 * x * (-v) * (1 - w)
          - (-v) * (-v) * y) / 2 / (1 + sv * sv * y)
          - 1 / 2 * Real.log (1 + sv * sv * y) := by
    funext x
    rw [wiener5_compute_error_term_eq]
    ring
  rw [hfun]
  have hid : HasDerivAt (fun x : ℝ => x) 1 a := hasDerivAt_id a
  have hx : HasDerivAt (fun x : ℝ => x * (1 - w)) (1 * (1 - w)) a := hid.mul_const _
  have h1 : HasDerivAt (fun x : ℝ => sv * sv * ((x * (1 - w)) * (x * (1 - w))))
      (sv * sv * (1 * (1 - w) * (a * (1 - w)) + a * (1 - w) * (1 * (1 - w)))) a :=
    (hx.mul hx).const_mul _
  have h2 : HasDerivAt (fun x : ℝ => 2 * x * (-v) * (1 - w)) (2 * 1 * (-v) * (1 - w)) a :=
    ((hid.const_mul 2).mul_const (-v)).mul_const (1 - w)
  have h := ((((h1.sub h2).sub_const ((-v) * (-v) * y)).div_const 2).div_const
    (1 + sv * sv * y)).sub_const (1 / 2 * Real.log (1 + sv * sv * y))
  convert h using 1
  unfold wiener5_density_part_one square
  by_cases hsv : sv = 0
  · subst hsv
    simp
    ring
  · simp only [Bool.false_eq_true, if_false, if_true, ne_eq, hsv, not_false_eq_true]
    field_simp
    ring

theorem wiener5_density_part_one_hasDerivAt_w (y a v w sv : ℝ) (hy : 0 < y) :
    HasDerivAt (fun x => wiener5_compute_error_term Real.log y a v x sv)
      (-wiener5_density_part_one false false y a v w sv) w := by
  have hD0 : (1 + sv * sv * y) ≠ 0 := (one_plus_svsqr_y_pos y sv hy).ne'
  have hfun : (fun x => wiener5_compute_error_term Real.log y a v x sv)
      = fun x => (sv * sv * ((a * (1 - x)) * (a * (1 - x))) - 2 * a * (-v) * (1 - x)
          - (-v) * (-v) * y) / 2 / (1 + sv * sv * y) - 2 * Real.log a
          - 1 / 2 * Real.log (1 + sv * sv * y) :=
    funext (fun x => wiener5_compute_error_term_eq y a v x sv)
  rw [hfun]
  have hid : HasDerivAt (fun x : ℝ => x) 1 w := hasDerivAt_id w
  have hw : HasDerivAt (fun x : ℝ => 1 - x) (-1) w := hid.const_sub 1
  have hx : HasDerivAt (fun x : ℝ => a * (1 - x)) (a * (-1)) w := hw.const_mul a
  have h1 : HasDerivAt (fun x : ℝ => sv * sv * ((a * (1 - x)) * (a * (1 - x))))
      (sv * sv * (a * (-1) * (a * (1 - w)) + a * (1 - w) * (a * (-1)))) w :=
    (hx.mul hx).const_mul _
  have h2 : HasDerivAt (fun x : ℝ => 2 * a * (-v) * (1 - x)) (2 * a * (-v) * (-1)) w :=
    hw.const_mul _
  have h := (((((h1.sub h2).sub_const ((-v) * (-v) * y)).div_const 2).div_const
    (1 + sv * sv * y)).sub_const (2 * Real.log a)).sub_const
      (1 / 2 * Real.log (1 + sv * sv * y))
  convert h using 1
  unfold wiener5_density_part_one square
  by_cases hsv : sv = 0
  · subst hsv
    simp
    ring
  · simp only [Bool.false_eq_true, if_false, if_true, ne_eq, hsv, not_false_eq_true]
    field_simp
    ring

/-- C14: over the reals, for `y > 0` and all `a`, `v_value`, `w_value`, `sv` (in
particular `a > 0`), `wiener5_grad_sv<WrtLog = false>(y, a, v_value, w_value, sv)` is the
derivative with respect to `sv` of `wiener5_compute_error_term(y, a, v_value, w_value,
sv)`, and it is 0 at `sv = 0`. -/
theorem wiener5_grad_sv_is_derivative (dn : ℝ → ℝ → ℝ → ℝ → ℝ → ℝ → ℝ)
    (y a v w sv err : ℝ) (hy : 0 < y) :
    HasDerivAt (fun s => wiener5_compute_error_term Real.log y a v w s)
      (wiener5_grad_sv false dn y a v w sv err) sv ∧
    wiener5_grad_sv false dn y a v w 0 err = 0 :=
  ⟨wiener5_grad_sv_hasDerivAt dn y a v w sv err hy, by simp [wiener5_grad_sv]⟩

/-- Witness of `wiener5_grad_sv_is_derivative`: at `y = 1`, `a = 1`, `v_value = 0`,
`w_value = 1/2`, `sv = 1` the derivative is `-7/16`. -/
theorem wiener5_grad_sv_is_derivative_witness :
    HasDerivAt (fun s : ℝ => wiener5_compute_error_term Real.log 1 1 0 (1 / 2) s)
      (-7 / 16) 1 := by
  have h := (wiener5_grad_sv_is_derivative (fun _ _ _ _ _ _ => 0) 1 1 0 (1 / 2) 1 0
    one_pos).1
  convert h using 1
  norm_num [wiener5_grad_sv, square]

/-- Witness of `wiener5_grad_v_is_derivative`: at `y = 1`, `a = 1`, `v_value = 0`,
`w_value = 1/2`, `sv = 1` the derivative is `1/4`. -/
theorem wiener5_grad_v_is_derivative_witness :
    HasDerivAt (fun x : ℝ => wiener5_compute_error_term Real.log 1 1 x (1 / 2) 1)
      (1 / 4) 0 := by
  have h := wiener5_grad_v_is_derivative (fun _ _ _ _ _ _ => 0) 1 1 0 (1 / 2) 1 0 one_pos
  convert h using 1
  norm_num [wiener5_grad_v, square]

/-- Witness of `wiener5_density_part_one_is_derivative_y`: at `y = 1`, `a = 1`,
`v_value = 0`, `w_value = 1/2`, `sv = 1` the derivative is `-9/32`. -/
theorem wiener5_density_part_one_is_derivative_y_witness :
    HasDerivAt (fun t : ℝ => wiener5_compute_error_term Real.log t 1 0 (1 / 2) 1)
      (-9 / 32) 1 := by
  have h := wiener5_density_part_one_is_derivative_y 1 1 0 (1 / 2) 1 one_pos
  convert h using 1
  norm_num [wiener5_density_part_one, square]

/-- C17: over the reals, for `y > 0` and all `a`, `v_value`, `w_value`, `sv` (in
particular `a > 0`), `wiener5_density_part_one<GradA = true, GradT = false>` is the
derivative with respect to `a` of `wiener5_compute_error_term + 2 * log(a)`, and
`wiener5_density_part_one<GradA = false, GradT = false>` is minus the derivative with
respect to `w_value` of `wiener5_compute_error_term`: that derivative is the negation of
the value the function returns. -/
theorem wiener5_density_part_one_is_derivative_a_w (y a v w sv : ℝ) (hy : 0 < y) :
    HasDerivAt (fun x => wiener5_compute_error_term Real.log y x v w sv + 2 * Real.log x)
      (wiener5_density_part_one true false y a v w sv) a ∧
    HasDerivAt (fun x => wiener5_compute_error_term Real.log y a v x sv)
      (-wiener5_density_part_one false false y a v w sv) w :=
  ⟨wiener5_density_part_one_hasDerivAt_a y a v w sv hy,
    wiener5_density_part_one_hasDerivAt_w y a v w sv hy⟩

/-- Witness of `wiener5_density_part_one_is_derivative_a_w`: at `y = 1`, `a = 1`,
`v_value = 0`, `w_value = 1/2`, `sv = 1` the derivatives are `1/8` and `-1/4`. -/
theorem wiener5_density_part_one_is_derivative_a_w_witness :
    HasDerivAt
      (fun x : ℝ => wiener5_compute_error_term Real.log 1 x 0 (1 / 2) 1 + 2 * Real.log x)
      (1 / 8) 1 ∧
    HasDerivAt (fun x : ℝ => wiener5_compute_error_term Real.log 1 1 0 x 1) (-(1 / 4))
      (1 / 2) := by
  have h := wiener5_density_part_one_is_derivative_a_w 1 1 0 (1 / 2) 1 one_pos
  constructor
  · convert h.1 using 1
    norm_num [wiener5_density_part_one, square]
  · convert h.2 using 1
    norm_num [wiener5_density_part_one, square]

/-! ## The loop of `grad_pFq` -/

theorem grad_pFq_body_k (ops : FloatOps) (pm : PFqMath) (CalcA CalcB : Bool) (log_z : Dbl)
    (z_sign : Int) (st : PFqState) :
    (grad_pFq_body ops pm CalcA CalcB log_z z_sign st).k = st.k + 1 := rfl

theorem grad_pFq_cond_le (pm : PFqMath) (precision : Dbl) (max_steps : Int) (st : PFqState)
    (h : grad_pFq_cond pm precision max_steps st = true) : st.k ≤ max_steps := by
  unfold grad_pFq_cond at h
  simp only [Bool.and_eq_true, decide_eq_true_eq] at h
  exact h.2

theorem grad_pFq_cond_of_small (pm : PFqMath) (precision : Dbl) (max_steps : Int)
    (st : PFqState) (h1 : st.k < 10) (h2 : st.k ≤ max_steps) :
    grad_pFq_cond pm precision max_steps st = true := by
  unfold grad_pFq_cond
  simp [h1, h2]

theorem grad_pFq_while_cond (ops : FloatOps) (pm : PFqMath) (CalcA CalcB : Bool)
    (log_z : Dbl) (z_sign : Int) (precision : Dbl) (max_steps : Int) (fuel : Nat)
    (st : PFqState) (h : max_steps + 1 ≤ st.k + fuel) :
    grad_pFq_cond pm precision max_steps
      (grad_pFq_while ops pm CalcA CalcB log_z z_sign precision max_steps fuel st)
      = false := by
  induction fuel generalizing st with
  | zero =>
    unfold grad_pFq_while
    cases hc : grad_pFq_cond pm precision max_steps st
    · rfl
    · have := grad_pFq_cond_le pm precision max_steps st hc
      simp only [Nat.cast_zero, add_zero] at h
      omega
  | succ n ih =>
    unfold grad_pFq_while
    cases hc : grad_pFq_cond pm precision max_steps st
    · simp [hc]
    · simp only [if_true]
      apply ih
      rw [grad_pFq_body_k]
      push_cast at h
      omega

theorem grad_pFq_while_k_le (ops : FloatOps) (pm : PFqMath) (CalcA CalcB : Bool)
    (log_z : Dbl) (z_sign : Int) (precision : Dbl) (max_steps : Int) (fuel : Nat)
    (st : PFqState) (bound : Int) (hb : max_steps + 1 ≤ bound) (h : st.k ≤ bound) :
    (grad_pFq_while ops pm CalcA CalcB log_z z_sign precision max_steps fuel st).k
      ≤ bound := by
  induction fuel generalizing st with
  | zero => exact h
  | succ n ih =>
    unfold grad_pFq_while
    cases hc : grad_pFq_cond pm precision max_steps st
    · simpa using h
    · simp only [if_true]
      apply ih
      rw [grad_pFq_body_k]
      have := grad_pFq_cond_le pm precision max_steps st hc
      omega

theorem grad_pFq_while_small (ops : FloatOps) (pm : PFqMath) (CalcA CalcB : Bool)
    (log_z : Dbl) (z_sign : Int) (precision : Dbl) (n : Nat) (hn : n < 10) (fuel : Nat)
    (st : PFqState) (h : st.k + fuel = n + 1) (h0 : 0 ≤ st.k) :
    (grad_pFq_while ops pm CalcA CalcB log_z z_sign precision n fuel st).k = n + 1 := by
  induction fuel generalizing st with
  | zero =>
    unfold grad_pFq_while
    simpa using h
  | succ m ih =>
    unfold grad_pFq_while
    push_cast at h
    have hc : grad_pFq_cond pm precision n st = true :=
      grad_pFq_cond_of_small pm precision n st (by omega) (by omega)
    rw [if_pos hc]
    apply ih
    · rw [grad_pFq_body_k]
      omega
    · rw [grad_pFq_body_k]
      omega

/-- The loop of `grad_pFq` ends with its condition false: the fuel of the model never
cuts it short. -/
theorem grad_pFq_exit_cond (ops : FloatOps) (pm : PFqMath) (CalcA CalcB : Bool)
    (a b : List Dbl) (z precision : Dbl) (max_steps : Int) :
    grad_pFq_cond pm precision max_steps
      (grad_pFq_exit ops pm CalcA CalcB a b z precision max_steps) = false := by
  unfold grad_pFq_exit
  apply grad_pFq_while_cond
  simp only [grad_pFq_init]
  have := Int.self_le_toNat (max_steps + 1)
  omega

/-- The loop of `grad_pFq` runs at most `max_steps + 1` iterations. -/
theorem grad_pFq_exit_k_le (ops : FloatOps) (pm : PFqMath) (CalcA CalcB : Bool)
    (a b : List Dbl) (z precision : Dbl) (max_steps : Int) :
    (grad_pFq_exit ops pm CalcA CalcB a b z precision max_steps).k
      ≤ max (max_steps + 1) 0 := by
  unfold grad_pFq_exit
  apply grad_pFq_while_k_le
  · exact le_max_left _ _
  · exact le_max_right _ _

/-- For a budget below 10 the loop of `grad_pFq` runs `max_steps + 1` iterations, whatever
the arguments and the precision. -/
theorem grad_pFq_exit_k_small (ops : FloatOps) (pm : PFqMath) (CalcA CalcB : Bool)
    (a b : List Dbl) (z precision : Dbl) (n : Nat) (hn : n < 10) :
    (grad_pFq_exit ops pm CalcA CalcB a b z precision n).k = n + 1 := by
  unfold grad_pFq_exit
  apply grad_pFq_while_small ops pm CalcA CalcB _ _ precision n hn
  · simp only [grad_pFq_init]
    have : ((n : Int) + 1).toNat = n + 1 := by omega
    rw [this]
    push_cast
    omega
  · exact le_refl _

/-- C19, the code at `max_steps = 0` (any arguments, any precision, `CalcA` or `CalcB`
set): the loop of `grad_pFq` runs one iteration, `k` is 1 when it ends, more than the
documented maximum of `max_steps` iterations.  For every budget `n` below 10 it runs
`n + 1` iterations; for every budget it ends, its condition false, after at most
`max_steps + 1` iterations. -/
theorem grad_pFq_iterations (ops : FloatOps) (pm : PFqMath) (CalcA CalcB : Bool)
    (a b : List Dbl) (z precision : Dbl) :
    (grad_pFq_exit ops pm CalcA CalcB a b z precision 0).k = 1 ∧
    (∀ n : Nat, n < 10 →
      (grad_pFq_exit ops pm CalcA CalcB a b z precision n).k = n + 1) ∧
    (∀ max_steps : Int,
      (grad_pFq_exit ops pm CalcA CalcB a b z precision max_steps).k
        ≤ max (max_steps + 1) 0 ∧
      grad_pFq_cond pm precision max_steps
        (grad_pFq_exit ops pm CalcA CalcB a b z precision max_steps) = false) :=
  ⟨grad_pFq_exit_k_small ops pm CalcA CalcB a b z precision 0 (by decide),
    fun n hn => grad_pFq_exit_k_small ops pm CalcA CalcB a b z precision n hn,
    fun max_steps => ⟨grad_pFq_exit_k_le ops pm CalcA CalcB a b z precision max_steps,
      grad_pFq_exit_cond ops pm CalcA CalcB a b z precision max_steps⟩⟩

/-- C20: when `CalcZ` is set, the third component of the tuple `grad_pFq` returns is
`prod(a) / prod(b) * hypergeometric_pFq(a + 1, b + 1, z)`, whatever `pfq_val`,
`precision`, `max_steps`, `CalcA` and `CalcB` are; `grad_pFq` throws exactly when that
call of `hypergeometric_pFq` throws. -/
theorem grad_pFq_z_component (ops : FloatOps) (pm : PFqMath) (CalcA CalcB : Bool)
    (pfq_val : Dbl) (a b : List Dbl) (z precision : Dbl) (max_steps : Int) :
    (grad_pFq ops pm CalcA CalcB true pfq_val a b z precision max_steps).map
        (fun t => t.2.2)
      = (pm.hypergeometric_pFq (a.map (fun x => ops.add x (Dbl.fin 1)))
          (b.map (fun x => ops.add x (Dbl.fin 1))) z).map
        (fun pfq_p1_val => ops.mul (pm.div (pm.prod a) (pm.prod b)) pfq_p1_val) := by
  unfold grad_pFq
  simp only [if_true]
  cases pm.hypergeometric_pFq (a.map (fun x => ops.add x (Dbl.fin 1)))
    (b.map (fun x => ops.add x (Dbl.fin 1))) z <;> rfl

theorem Dbl.lt_fin (p q : ℚ) : (Dbl.fin p).lt (Dbl.fin q) = decide (p < q) := by
  simp [Dbl.lt, Dbl.ext]

/-- C18, counterexample: `grad_pFq<true, true, false>` at `pfq_val = 2.718`, `a = [1]`,
`b = [1]`, `z = 1`, `precision = 1e-14`, `max_steps = 0`.  The loop runs its one
iteration and ends with `k = 1 > max_steps`, the budget exhausted, while
`curr_log_prec = 0 > log(precision)`, the series not converged; the call returns the
partial sums `[1 - 2.718]`, `[-1 + 2.718]` and reports no failure. -/
theorem grad_pFq_budget_counterexample :
    (grad_pFq_exit exactOps samplePFqMath true true [Dbl.fin 1] [Dbl.fin 1] (Dbl.fin 1)
        (Dbl.fin (1 / 100000000000000)) 0).k = 1 ∧
    (grad_pFq_exit exactOps samplePFqMath true true [Dbl.fin 1] [Dbl.fin 1] (Dbl.fin 1)
        (Dbl.fin (1 / 100000000000000)) 0).curr_log_prec = Dbl.fin 0 ∧
    (grad_pFq_exit exactOps samplePFqMath true true [Dbl.fin 1] [Dbl.fin 1] (Dbl.fin 1)
        (Dbl.fin (1 / 100000000000000)) 0).curr_log_prec.gt
      (samplePFqMath.log (Dbl.fin (1 / 100000000000000))) = true ∧
    grad_pFq exactOps samplePFqMath true true false (Dbl.fin (2718 / 1000)) [Dbl.fin 1]
        [Dbl.fin 1] (Dbl.fin 1) (Dbl.fin (1 / 100000000000000)) 0
      = Except.ok ([Dbl.fin (-1718 / 1000)], [Dbl.fin (1718 / 1000)], Dbl.fin 0) := by
  have hlog1 : samplePFqMath.log (Dbl.fin 1) = Dbl.fin 0 := by
    simp [samplePFqMath, sampleLibM]
  have hexp0 : samplePFqMath.exp (Dbl.fin 0) = Dbl.fin 1 := by
    simp [samplePFqMath]
  have hinv1 : samplePFqMath.inv (Dbl.fin 1) = Dbl.fin 1 := by
    simp [samplePFqMath]
  have hlog1p : samplePFqMath.log1p (Dbl.fin 0) = Dbl.fin 0 := by
    simp [samplePFqMath]
  have hmaxc : samplePFqMath.maxCoeff [Dbl.fin 0] = Dbl.fin 0 := rfl
  have hsum : samplePFqMath.sum [Dbl.fin 0] = Dbl.fin 0 := by
    simp [samplePFqMath, Dbl.addExact, Dbl.toRat]
  have hdiv : samplePFqMath.div (Dbl.fin (2718 / 1000)) (Dbl.fin 1) = Dbl.fin (2718 / 1000) := by
    simp [samplePFqMath, Dbl.mulExact, Dbl.toRat]
  have hbeq1 : (Dbl.fin 1).beq (Dbl.fin 0) = false := by
    simp [Dbl.beq, Dbl.ext]
  have hlt1 : (Dbl.fin 1).lt (Dbl.fin 0) = false := by
    simp [Dbl.lt, Dbl.ext]
  have hbs1 : binarysign samplePFqMath (Dbl.fin 1) = 1 := by
    simp [binarysign, hbeq1, hlt1, samplePFqMath]
  have hof1 : Dbl.ofInt 1 = Dbl.fin 1 := by
    simp [Dbl.ofInt]
  have hof0 : Dbl.ofInt 0 = Dbl.fin 0 := by
    simp [Dbl.ofInt]
  have hadd00 : exactOps.add (Dbl.fin 0) (Dbl.fin 0) = Dbl.fin 0 := by
    simp [exactOps, Dbl.addExact, Dbl.toRat]
  have hadd01 : exactOps.add (Dbl.fin 0) (Dbl.fin 1) = Dbl.fin 1 := by
    simp [exactOps, Dbl.addExact, Dbl.toRat]
  have hadd11 : exactOps.add (Dbl.fin 1) (Dbl.fin 1) = Dbl.fin 2 := by
    simp [exactOps, Dbl.addExact, Dbl.toRat]
    norm_num
  have hsub00 : exactOps.sub (Dbl.fin 0) (Dbl.fin 0) = Dbl.fin 0 := by
    simp [exactOps, Dbl.addExact, Dbl.neg, Dbl.toRat]
  have hsub01 : exactOps.sub (Dbl.fin 0) (Dbl.fin 1) = Dbl.fin (-1) := by
    simp [exactOps, Dbl.addExact, Dbl.neg, Dbl.toRat]
  have hmul11 : exactOps.mul (Dbl.fin 1) (Dbl.fin 1) = Dbl.fin 1 := by
    simp [exactOps, Dbl.mulExact, Dbl.toRat]
  have hfabs1 : (Dbl.fin 1).fabs = Dbl.fin 1 := by
    simp [Dbl.fabs]
  have hmax : std_max Dbl.NEGATIVE_INFTY (Dbl.fin 0) = Dbl.fin 0 := by
    simp [std_max, Dbl.NEGATIVE_INFTY, Dbl.lt, Dbl.ext]
  have hmax0 : std_max (Dbl.fin 0) (Dbl.fin 0) = Dbl.fin 0 := by
    simp [std_max]
  have haccA : grad_pFq_accumulate exactOps samplePFqMath false 1 (Dbl.fin 0)
        Dbl.NEGATIVE_INFTY [Dbl.fin 0] [Dbl.fin 1] [Dbl.fin 1]
      = ([Dbl.fin 1], Dbl.fin 0, [Dbl.fin 2]) := by
    simp only [grad_pFq_accumulate, List.map, List.zipWith, hbeq1, hfabs1, hlog1, hadd00,
      hexp0, hbs1, hof1, hmul11, hadd01, hmaxc, hmax, hinv1, hadd11, Bool.false_eq_true,
      if_false]
  have haccB : grad_pFq_accumulate exactOps samplePFqMath true 1 (Dbl.fin 0)
        (Dbl.fin 0) [Dbl.fin 0] [Dbl.fin 1] [Dbl.fin 1]
      = ([Dbl.fin (-1)], Dbl.fin 0, [Dbl.fin 2]) := by
    simp only [grad_pFq_accumulate, List.map, List.zipWith, hbeq1, hfabs1, hlog1, hadd00,
      hexp0, hbs1, hof1, hmul11, hsub01, hmaxc, hmax0, hinv1, hadd11, Bool.false_eq_true,
      if_false, if_true]
  have hbody : grad_pFq_body exactOps samplePFqMath true true (Dbl.fin 0) 1
        (grad_pFq_init samplePFqMath [Dbl.fin 1] [Dbl.fin 1])
      = ⟨1, 1, Dbl.fin 0, Dbl.fin 0, [Dbl.fin 2], [Dbl.fin 2], [Dbl.fin 2], [Dbl.fin 2],
          [Dbl.fin 1], [Dbl.fin (-1)]⟩ := by
    simp only [grad_pFq_body, grad_pFq_init, List.map, hinv1, if_true, haccA, haccB,
      hbeq1, hfabs1, hlog1, hsum, hadd00, hof0, hlog1p, hsub00, hbs1, hadd11,
      Bool.false_eq_true, if_false, List.prod_cons, List.prod_nil]
    norm_num
  have hexit : grad_pFq_exit exactOps samplePFqMath true true [Dbl.fin 1] [Dbl.fin 1]
        (Dbl.fin 1) (Dbl.fin (1 / 100000000000000)) 0
      = ⟨1, 1, Dbl.fin 0, Dbl.fin 0, [Dbl.fin 2], [Dbl.fin 2], [Dbl.fin 2], [Dbl.fin 2],
          [Dbl.fin 1], [Dbl.fin (-1)]⟩ := by
    have hc : grad_pFq_cond samplePFqMath (Dbl.fin (1 / 100000000000000)) 0
        (grad_pFq_init samplePFqMath [Dbl.fin 1] [Dbl.fin 1]) = true :=
      grad_pFq_cond_of_small _ _ _ _ (by decide) (by decide)
    have hfuel : ((0 : Int) + 1).toNat = 1 := by decide
    unfold grad_pFq_exit
    rw [hfuel, hfabs1, hlog1, hbs1]
    unfold grad_pFq_while
    rw [if_pos hc, hbody]
    rfl
  refine ⟨?_, ?_, ?_, ?_⟩
  · rw [hexit]
  · rw [hexit]
  · have hlogp : samplePFqMath.log (Dbl.fin (1 / 100000000000000))
        = Dbl.fin (1 / 100000000000000 - 1) := by
      simp [samplePFqMath, sampleLibM]
    rw [hexit, hlogp, Dbl.gt, Dbl.lt_fin]
    norm_num
  · unfold grad_pFq grad_pFq_ab
    rw [hexit]
    simp only [Bool.or_self, if_true, List.zipWith, hdiv, Bool.false_eq_true, if_false]
    simp [exactOps, Dbl.addExact, Dbl.neg, Dbl.toRat]
    norm_num

/-- C18 as amended: whether or not the series has converged when the loop of `grad_pFq`
ends, the call returns the tuple made of the sums the loop ended with (minus
`pfq_val / a` and plus `pfq_val / b` under `CalcA`, `CalcB`) and reports no failure of its
own: without `CalcZ` it always returns, with `CalcZ` it throws exactly when
`hypergeometric_pFq` does.  The loop ends, its condition false, after at most
`max_steps + 1` iterations. -/
theorem grad_pFq_returns_partial_sums (ops : FloatOps) (pm : PFqMath) (CalcA CalcB : Bool)
    (pfq_val : Dbl) (a b : List Dbl) (z precision : Dbl) (max_steps : Int) :
    grad_pFq ops pm CalcA CalcB false pfq_val a b z precision max_steps
      = Except.ok
          ((grad_pFq_ab ops pm CalcA CalcB pfq_val a b z precision max_steps).1,
            (grad_pFq_ab ops pm CalcA CalcB pfq_val a b z precision max_steps).2,
            Dbl.fin 0) ∧
    grad_pFq ops pm CalcA CalcB true pfq_val a b z precision max_steps
      = (pm.hypergeometric_pFq (a.map (fun x => ops.add x (Dbl.fin 1)))
          (b.map (fun x => ops.add x (Dbl.fin 1))) z).map
        (fun pfq_p1_val =>
          ((grad_pFq_ab ops pm CalcA CalcB pfq_val a b z precision max_steps).1,
            (grad_pFq_ab ops pm CalcA CalcB pfq_val a b z precision max_steps).2,
            ops.mul (pm.div (pm.prod a) (pm.prod b)) pfq_p1_val)) ∧
    grad_pFq_ab ops pm true true pfq_val a b z precision max_steps
      = (List.zipWith (fun r x => ops.sub r (pm.div pfq_val x))
            (grad_pFq_exit ops pm true true a b z precision max_steps).ret_a a,
          List.zipWith (fun r x => ops.add r (pm.div pfq_val x))
            (grad_pFq_exit ops pm true true a b z precision max_steps).ret_b b) ∧
    grad_pFq_cond pm precision max_steps
      (grad_pFq_exit ops pm CalcA CalcB a b z precision max_steps) = false ∧
    (grad_pFq_exit ops pm CalcA CalcB a b z precision max_steps).k
      ≤ max (max_steps + 1) 0 := by
  refine ⟨rfl, ?_, rfl, grad_pFq_exit_cond ops pm CalcA CalcB a b z precision max_steps,
    grad_pFq_exit_k_le ops pm CalcA CalcB a b z precision max_steps⟩
  unfold grad_pFq
  simp only [if_true]
  cases pm.hypergeometric_pFq (a.map (fun x => ops.add x (Dbl.fin 1)))
    (b.map (fun x => ops.add x (Dbl.fin 1))) z <;> rfl

/-! ## `grad_pFq`: the components whose flag is off -/

theorem grad_pFq_body_ret_a_off (ops : FloatOps) (pm : PFqMath) (CalcB : Bool) (log_z : Dbl)
    (z_sign : Int) (st : PFqState) :
    (grad_pFq_body ops pm false CalcB log_z z_sign st).ret_a = st.ret_a := rfl

theorem grad_pFq_body_ret_b_off (ops : FloatOps) (pm : PFqMath) (CalcA : Bool) (log_z : Dbl)
    (z_sign : Int) (st : PFqState) :
    (grad_pFq_body ops pm CalcA false log_z z_sign st).ret_b = st.ret_b := rfl

theorem grad_pFq_while_ret_a_off (ops : FloatOps) (pm : PFqMath) (CalcB : Bool)
    (log_z : Dbl) (z_sign : Int) (precision : Dbl) (max_steps : Int) (fuel : Nat)
    (st : PFqState) :
    (grad_pFq_while ops pm false CalcB log_z z_sign precision max_steps fuel st).ret_a
      = st.ret_a := by
  induction fuel generalizing st with
  | zero => rfl
  | succ n ih =>
    unfold grad_pFq_while
    cases hc : grad_pFq_cond pm precision max_steps st
    · simp
    · simp only [if_true]
      rw [ih, grad_pFq_body_ret_a_off]

theorem grad_pFq_while_ret_b_off (ops : FloatOps) (pm : PFqMath) (CalcA : Bool)
    (log_z : Dbl) (z_sign : Int) (precision : Dbl) (max_steps : Int) (fuel : Nat)
    (st : PFqState) :
    (grad_pFq_while ops pm CalcA false log_z z_sign precision max_steps fuel st).ret_b
      = st.ret_b := by
  induction fuel generalizing st with
  | zero => rfl
  | succ n ih =>
    unfold grad_pFq_while
    cases hc : grad_pFq_cond pm precision max_steps st
    · simp
    · simp only [if_true]
      rw [ih, grad_pFq_body_ret_b_off]

theorem map_zero_eq_replicate (l : List Dbl) :
    l.map (fun _ => Dbl.fin 0) = List.replicate l.length (Dbl.fin 0) := by
  induction l with
  | nil => rfl
  | cons x t ih => simp [List.replicate_succ, ih]

theorem grad_pFq_ab_fst_off (ops : FloatOps) (pm : PFqMath) (CalcB : Bool) (pfq_val : Dbl)
    (a b : List Dbl) (z precision : Dbl) (max_steps : Int) :
    (grad_pFq_ab ops pm false CalcB pfq_val a b z precision max_steps).1
      = List.replicate a.length (Dbl.fin 0) := by
  unfold grad_pFq_ab
  cases CalcB
  · simp only [Bool.or_self, Bool.false_eq_true, if_false]
    exact map_zero_eq_replicate a
  · simp only [Bool.or_true, if_true, Bool.false_eq_true, if_false]
    unfold grad_pFq_exit
    rw [grad_pFq_while_ret_a_off]
    exact map_zero_eq_replicate a

theorem grad_pFq_ab_snd_off (ops : FloatOps) (pm : PFqMath) (CalcA : Bool) (pfq_val : Dbl)
    (a b : List Dbl) (z precision : Dbl) (max_steps : Int) :
    (grad_pFq_ab ops pm CalcA false pfq_val a b z precision max_steps).2
      = List.replicate b.length (Dbl.fin 0) := by
  unfold grad_pFq_ab
  cases CalcA
  · simp only [Bool.or_self, Bool.false_eq_true, if_false]
    exact map_zero_eq_replicate b
  · simp only [Bool.or_false, if_true, Bool.false_eq_true, if_false]
    unfold grad_pFq_exit
    rw [grad_pFq_while_ret_b_off]
    exact map_zero_eq_replicate b

theorem grad_pFq_ok_components (ops : FloatOps) (pm : PFqMath) (CalcA CalcB CalcZ : Bool)
    (pfq_val : Dbl) (a b : List Dbl) (z precision : Dbl) (max_steps : Int)
    (t : List Dbl × List Dbl × Dbl)
    (h : grad_pFq ops pm CalcA CalcB CalcZ pfq_val a b z precision max_steps = Except.ok t) :
    t.1 = (grad_pFq_ab ops pm CalcA CalcB pfq_val a b z precision max_steps).1 ∧
    t.2.1 = (grad_pFq_ab ops pm CalcA CalcB pfq_val a b z precision max_steps).2 := by
  unfold grad_pFq at h
  cases CalcZ
  · simp only [Bool.false_eq_true, if_false] at h
    cases h
    exact ⟨rfl, rfl⟩
  · simp only [if_true] at h
    cases hp : pm.hypergeometric_pFq (a.map (fun x => ops.add x (Dbl.fin 1)))
      (b.map (fun x => ops.add x (Dbl.fin 1))) z with
    | error e => rw [hp] at h; cases h
    | ok v =>
      rw [hp] at h
      cases h
      exact ⟨rfl, rfl⟩

/-- C21: in the tuple `grad_pFq` returns, a component whose flag is off is zero: without
`CalcA` the first component is the zero vector of length `a.size()`, without `CalcB` the
second is the zero vector of length `b.size()`, and without `CalcZ` the call returns a
tuple whose third component is 0, whatever the other flags and the inputs are. -/
theorem grad_pFq_flag_off_zero (ops : FloatOps) (pm : PFqMath) (CalcA CalcB CalcZ : Bool)
    (pfq_val : Dbl) (a b : List Dbl) (z precision : Dbl) (max_steps : Int) :
    (grad_pFq ops pm false CalcB CalcZ pfq_val a b z precision max_steps).map (fun t => t.1)
      = (grad_pFq ops pm false CalcB CalcZ pfq_val a b z precision max_steps).map
          (fun _ => List.replicate a.length (Dbl.fin 0)) ∧
    (grad_pFq ops pm CalcA false CalcZ pfq_val a b z precision max_steps).map
        (fun t => t.2.1)
      = (grad_pFq ops pm CalcA false CalcZ pfq_val a b z precision max_steps).map
          (fun _ => List.replicate b.length (Dbl.fin 0)) ∧
    (∃ ret_a ret_b, grad_pFq ops pm CalcA CalcB false pfq_val a b z precision max_steps
      = Except.ok (ret_a, ret_b, Dbl.fin 0)) ∧
    (∃ ret_b, grad_pFq ops pm false CalcB false pfq_val a b z precision max_steps
      = Except.ok (List.replicate a.length (Dbl.fin 0), ret_b, Dbl.fin 0)) ∧
    (∃ ret_a, grad_pFq ops pm CalcA false false pfq_val a b z precision max_steps
      = Except.ok (ret_a, List.replicate b.length (Dbl.fin 0), Dbl.fin 0)) := by
  refine ⟨?_, ?_,
    ⟨(grad_pFq_ab ops pm CalcA CalcB pfq_val a b z precision max_steps).1,
      (grad_pFq_ab ops pm CalcA CalcB pfq_val a b z precision max_steps).2, rfl⟩,
    ⟨(grad_pFq_ab ops pm false CalcB pfq_val a b z precision max_steps).2, ?_⟩,
    ⟨(grad_pFq_ab ops pm CalcA false pfq_val a b z precision max_steps).1, ?_⟩⟩
  · cases h : grad_pFq ops pm false CalcB CalcZ pfq_val a b z precision max_steps with
    | error e => rfl
    | ok t =>
      have h1 := (grad_pFq_ok_components ops pm false CalcB CalcZ pfq_val a b z precision
        max_steps t h).1
      rw [grad_pFq_ab_fst_off] at h1
      simp only [Except.map, h1]
  · cases h : grad_pFq ops pm CalcA false CalcZ pfq_val a b z precision max_steps with
    | error e => rfl
    | ok t =>
      have h1 := (grad_pFq_ok_components ops pm CalcA false CalcZ pfq_val a b z precision
        max_steps t h).2
      rw [grad_pFq_ab_snd_off] at h1
      simp only [Except.map, h1]
  · show Except.ok ((grad_pFq_ab ops pm false CalcB pfq_val a b z precision max_steps).1,
      (grad_pFq_ab ops pm false CalcB pfq_val a b z precision max_steps).2, Dbl.fin 0) = _
    rw [grad_pFq_ab_fst_off]
  · show Except.ok ((grad_pFq_ab ops pm CalcA false pfq_val a b z precision max_steps).1,
      (grad_pFq_ab ops pm CalcA false pfq_val a b z precision max_steps).2, Dbl.fin 0) = _
    rw [grad_pFq_ab_snd_off]

/-! ## `one_hot_vector` -/

/-- C22: `one_hot_vector(K, k)` raises a domain error exactly when `K < 0`, `k < 1` or
`k > K`, so for `K = 0` with every `k`; it raises nothing else, and the error leaves the
function before the vector is built.  Otherwise it returns the vector of `K` zeros with 1
put at position `k - 1`, a position inside the vector. -/
theorem one_hot_vector_domain_error_iff (K k : Int) :
    ((∃ b, one_hot_vector K k = VectorOutcome.threw Error.domain_error b)
      ↔ (K < 0 ∨ k < 1 ∨ K < k)) ∧
    (∀ e b, one_hot_vector K k = VectorOutcome.threw e b
      → e = Error.domain_error ∧ b = false) ∧
    one_hot_vector 0 k = VectorOutcome.threw Error.domain_error false ∧
    (¬ (K < 0 ∨ k < 1 ∨ K < k) →
      one_hot_vector K k = VectorOutcome.returned
        ((List.replicate K.toNat (Dbl.fin 0)).set (k - 1).toNat (Dbl.fin 1)) ∧
      (k - 1).toNat < (List.replicate K.toNat (Dbl.fin 0)).length) := by
  have hthrow : (K < 0 ∨ k < 1 ∨ K < k) →
      one_hot_vector K k = VectorOutcome.threw Error.domain_error false := by
    intro h
    unfold one_hot_vector check_nonnegative_int check_bounded
    by_cases hK : 0 ≤ K
    · have hk : ¬ (1 ≤ k ∧ k ≤ K) := by omega
      by_cases h1 : 1 ≤ k
      · have h2 : ¬ k ≤ K := fun h2 => hk ⟨h1, h2⟩
        simp [hK, h1, h2]
      · simp [hK, h1]
    · simp [hK]
  have hret : ¬ (K < 0 ∨ k < 1 ∨ K < k) →
      one_hot_vector K k = VectorOutcome.returned
        ((List.replicate K.toNat (Dbl.fin 0)).set (k - 1).toNat (Dbl.fin 1)) := by
    intro h
    have hK : 0 ≤ K := by omega
    have h1 : 1 ≤ k := by omega
    have h2 : k ≤ K := by omega
    unfold one_hot_vector check_nonnegative_int check_bounded
    simp [hK, h1, h2]
  refine ⟨⟨?_, fun h => ⟨false, hthrow h⟩⟩, ?_, ?_, ?_⟩
  · rintro ⟨b, hb⟩
    by_contra hn
    rw [hret hn] at hb
    cases hb
  · intro e b hb
    by_cases hn : (K < 0 ∨ k < 1 ∨ K < k)
    · rw [hthrow hn] at hb
      cases hb
      exact ⟨rfl, rfl⟩
    · rw [hret hn] at hb
      cases hb
  · unfold one_hot_vector check_nonnegative_int check_bounded
    by_cases h1 : 1 ≤ k
    · have h2 : ¬ k ≤ 0 := by omega
      simp [h1, h2]
    · simp [h1]
  · intro hn
    refine ⟨hret hn, ?_⟩
    rw [List.length_replicate]
    omega

/-! ## `get_base1_lhs` -/

theorem get_base1_lhs_in_range {α : Type} (x : List α) (i : Nat) (h1 : 1 ≤ i)
    (h2 : i ≤ x.length) : get_base1_lhs x i = Except.ok (i - 1) := by
  unfold get_base1_lhs
  rw [if_pos ⟨h1, h2⟩]

theorem get_base1_lhs_out_of_range {α : Type} (x : List α) (i : Nat)
    (h : i = 0 ∨ x.length < i) : get_base1_lhs x i = Except.error Error.out_of_range := by
  unfold get_base1_lhs
  rw [if_neg (by omega)]

/-- C23: for a sequence `x` of any length `n`, also 0, `get_base1_lhs(x, i, ...)` succeeds
and refers to the element `x[i - 1]` when `1 <= i <= n`, and raises `std::out_of_range`
when `i = 0` or `i > n`, so for `i = n + 1` and for every index of an empty sequence. -/
theorem get_base1_lhs_bounds {α : Type} (x : List α) (i : Nat) :
    ((1 ≤ i ∧ i ≤ x.length) →
      ∃ h : i - 1 < x.length, get_base1_lhs x i = Except.ok (i - 1) ∧
        ref_read x (i - 1) = some (x.get ⟨i - 1, h⟩)) ∧
    ((i = 0 ∨ x.length < i) → get_base1_lhs x i = Except.error Error.out_of_range) ∧
    get_base1_lhs x 0 = Except.error Error.out_of_range ∧
    get_base1_lhs x (x.length + 1) = Except.error Error.out_of_range ∧
    get_base1_lhs ([] : List α) i = Except.error Error.out_of_range := by
  refine ⟨?_, get_base1_lhs_out_of_range x i, get_base1_lhs_out_of_range x 0 (Or.inl rfl),
    get_base1_lhs_out_of_range x (x.length + 1) (Or.inr (Nat.lt_succ_self _)), ?_⟩
  · rintro ⟨h1, h2⟩
    have h : i - 1 < x.length := by omega
    refine ⟨h, get_base1_lhs_in_range x i h1 h2, ?_⟩
    unfold ref_read
    rw [List.getElem?_eq_getElem h]
    rfl
  · apply get_base1_lhs_out_of_range
    cases i with
    | zero => exact Or.inl rfl
    | succ n => exact Or.inr (Nat.succ_pos n)

/-- C23, the accessor at the values of its test: on a vector of two elements the indices
1 and 2 succeed and the indices 0 and 3 raise `std::out_of_range`. -/
theorem get_base1_lhs_bounds_witness :
    (∃ h : 2 - 1 < [Dbl.fin 10, Dbl.fin 20].length,
      get_base1_lhs [Dbl.fin 10, Dbl.fin 20] 2 = Except.ok (2 - 1) ∧
        ref_read [Dbl.fin 10, Dbl.fin 20] (2 - 1)
          = some ([Dbl.fin 10, Dbl.fin 20].get ⟨2 - 1, h⟩)) ∧
    get_base1_lhs [Dbl.fin 10, Dbl.fin 20] 3 = Except.error Error.out_of_range :=
  ⟨(get_base1_lhs_bounds [Dbl.fin 10, Dbl.fin 20] 2).1 ⟨by decide, by decide⟩,
    (get_base1_lhs_bounds [Dbl.fin 10, Dbl.fin 20] 3).2.1 (Or.inr (by decide))⟩

theorem ref_assign_read_same {α : Type} (x : List α) (r : Nat) (v : α) (h : r < x.length) :
    ref_read (ref_assign x r v) r = some v := by
  unfold ref_read ref_assign
  rw [List.getElem?_set]
  simp [h]

theorem ref_assign_read_other {α : Type} (x : List α) (r j : Nat) (v : α) (h : j ≠ r) :
    ref_read (ref_assign x r v) j = ref_read x j := by
  unfold ref_read ref_assign
  rw [List.getElem?_set_ne (Ne.symm h)]

theorem get_base1_lhs_nested_in_range {α : Type} (x : List (List α)) (m n : Nat)
    (h1 : 1 ≤ m) (h2 : m ≤ x.length) (h3 : 1 ≤ n) (h4 : n ≤ (x.getD (m - 1) []).length) :
    get_base1_lhs_nested x m n = Except.ok (m - 1, n - 1) := by
  unfold get_base1_lhs_nested
  rw [get_base1_lhs_in_range x m h1 h2]
  simp only
  rw [get_base1_lhs_in_range _ n h3 h4]

theorem ref_assign_nested_read_same {α : Type} (x : List (List α)) (r c : Nat) (v : α)
    (hr : r < x.length) (hc : c < (x.getD r []).length) :
    ref_read_nested (ref_assign_nested x (r, c) v) (r, c) = some v := by
  have hrow : x.getD r [] = x[r] := by
    simp [List.getD_eq_getElem?_getD, List.getElem?_eq_getElem hr]
  rw [hrow] at hc
  unfold ref_read_nested ref_assign_nested
  simp only
  rw [List.getElem?_set, hrow]
  simp [hr, hc]

theorem ref_assign_nested_read_other {α : Type} (x : List (List α)) (r c p q : Nat) (v : α)
    (hr : r < x.length) (h : (p, q) ≠ (r, c)) :
    ref_read_nested (ref_assign_nested x (r, c) v) (p, q) = ref_read_nested x (p, q) := by
  unfold ref_read_nested ref_assign_nested
  simp only
  by_cases hp : p = r
  · subst hp
    have hq : q ≠ c := fun hq => h (by rw [hq])
    rw [List.getElem?_set]
    simp only [if_true, hr]
    rw [List.getElem?_eq_getElem hr]
    simp only [Option.some_bind, List.getD_eq_getElem?_getD, List.getElem?_eq_getElem hr,
      Option.getD_some]
    rw [List.getElem?_set_ne (Ne.symm hq)]
  · rw [List.getElem?_set_ne (Ne.symm hp)]

/-- C24: `get_base1_lhs` returns a writable reference.  For an index in range, assigning
`v` through `get_base1_lhs(x, i, ...)` makes a read through the accessor at the same index
give `v`, keeps the length and leaves every other element as it was; the same holds for a
pair of indices through the nested call on a vector of vectors. -/
theorem get_base1_lhs_assign {α : Type} (x : List α) (i : Nat) (v : α)
    (xs : List (List α)) (m n : Nat) (w : α) :
    ((1 ≤ i ∧ i ≤ x.length) →
      ∃ r, get_base1_lhs x i = Except.ok r ∧
        get_base1_lhs (ref_assign x r v) i = Except.ok r ∧
        ref_read (ref_assign x r v) r = some v ∧
        (ref_assign x r v).length = x.length ∧
        ∀ j, j ≠ r → ref_read (ref_assign x r v) j = ref_read x j) ∧
    ((1 ≤ m ∧ m ≤ xs.length ∧ 1 ≤ n ∧ n ≤ (xs.getD (m - 1) []).length) →
      ∃ r, get_base1_lhs_nested xs m n = Except.ok r ∧
        get_base1_lhs_nested (ref_assign_nested xs r w) m n = Except.ok r ∧
        ref_read_nested (ref_assign_nested xs r w) r = some w ∧
        (ref_assign_nested xs r w).map List.length = xs.map List.length ∧
        ∀ p q, (p, q) ≠ r →
          ref_read_nested (ref_assign_nested xs r w) (p, q) = ref_read_nested xs (p, q)) := by
  constructor
  · rintro ⟨h1, h2⟩
    have hr : i - 1 < x.length := by omega
    have hlen : (ref_assign x (i - 1) v).length = x.length := by
      unfold ref_assign
      rw [List.length_set]
    refine ⟨i - 1, get_base1_lhs_in_range x i h1 h2, ?_, ref_assign_read_same x _ v hr, hlen,
      fun j hj => ref_assign_read_other x _ j v hj⟩
    exact get_base1_lhs_in_range _ i h1 (by rw [hlen]; exact h2)
  · rintro ⟨h1, h2, h3, h4⟩
    have hr : m - 1 < xs.length := by omega
    have hc : n - 1 < (xs.getD (m - 1) []).length := by omega
    have hlen : (ref_assign_nested xs (m - 1, n - 1) w).length = xs.length := by
      unfold ref_assign_nested
      rw [List.length_set]
    have hrow : (ref_assign_nested xs (m - 1, n - 1) w).getD (m - 1) []
        = (xs.getD (m - 1) []).set (n - 1) w := by
      unfold ref_assign_nested
      simp [List.getD_eq_getElem?_getD, List.getElem?_set, hr]
    refine ⟨(m - 1, n - 1), get_base1_lhs_nested_in_range xs m n h1 h2 h3 h4, ?_,
      ref_assign_nested_read_same xs _ _ w hr hc, ?_,
      fun p q h => ref_assign_nested_read_other xs _ _ p q w hr h⟩
    · apply get_base1_lhs_nested_in_range _ m n h1 (by rw [hlen]; exact h2) h3
      rw [hrow, List.length_set]
      exact h4
    · unfold ref_assign_nested
      simp only
      apply List.ext_getElem?
      intro p
      simp only [List.getElem?_map, List.getElem?_set]
      by_cases hp : m - 1 = p
      · subst hp
        simp [hr, List.getD_eq_getElem?_getD, List.getElem?_eq_getElem hr]
      · simp [hp]

/-- C24 at the values of the test: assigning 5 through `get_base1_lhs(x, 2, ...)` on the
vector (10, 20), and 112.5 through the nested call at (1, 2) on a 3 by 4 vector of
vectors. -/
theorem get_base1_lhs_assign_witness :
    (∃ r, get_base1_lhs [Dbl.fin 10, Dbl.fin 20] 2 = Except.ok r ∧
      get_base1_lhs (ref_assign [Dbl.fin 10, Dbl.fin 20] r (Dbl.fin 5)) 2 = Except.ok r ∧
      ref_read (ref_assign [Dbl.fin 10, Dbl.fin 20] r (Dbl.fin 5)) r = some (Dbl.fin 5) ∧
      (ref_assign [Dbl.fin 10, Dbl.fin 20] r (Dbl.fin 5)).length
        = [Dbl.fin 10, Dbl.fin 20].length ∧
      ∀ j, j ≠ r → ref_read (ref_assign [Dbl.fin 10, Dbl.fin 20] r (Dbl.fin 5)) j
        = ref_read [Dbl.fin 10, Dbl.fin 20] j) ∧
    (∃ r, get_base1_lhs_nested (List.replicate 3 (List.replicate 4 (Dbl.fin 0))) 1 2
        = Except.ok r ∧
      get_base1_lhs_nested
        (ref_assign_nested (List.replicate 3 (List.replicate 4 (Dbl.fin 0))) r
          (Dbl.fin (225 / 2))) 1 2 = Except.ok r ∧
      ref_read_nested
        (ref_assign_nested (List.replicate 3 (List.replicate 4 (Dbl.fin 0))) r
          (Dbl.fin (225 / 2))) r = some (Dbl.fin (225 / 2)) ∧
      (ref_assign_nested (List.replicate 3 (List.replicate 4 (Dbl.fin 0))) r
          (Dbl.fin (225 / 2))).map List.length
        = (List.replicate 3 (List.replicate 4 (Dbl.fin 0))).map List.length ∧
      ∀ p q, (p, q) ≠ r →
        ref_read_nested
          (ref_assign_nested (List.replicate 3 (List.replicate 4 (Dbl.fin 0))) r
            (Dbl.fin (225 / 2))) (p, q)
          = ref_read_nested (List.replicate 3 (List.replicate 4 (Dbl.fin 0))) (p, q)) :=
  ⟨(get_base1_lhs_assign [Dbl.fin 10, Dbl.fin 20] 2 (Dbl.fin 5)
      (List.replicate 3 (List.replicate 4 (Dbl.fin 0))) 1 2 (Dbl.fin (225 / 2))).1
      ⟨by decide, by decide⟩,
    (get_base1_lhs_assign [Dbl.fin 10, Dbl.fin 20] 2 (Dbl.fin 5)
      (List.replicate 3 (List.replicate 4 (Dbl.fin 0))) 1 2 (Dbl.fin (225 / 2))).2
      ⟨by decide, by decide, by decide, by decide⟩⟩

/-! ## `identity_matrix` -/

/-- C26: for every negative integer `K`, `identity_matrix(K)` raises
`std::domain_error`, whatever it builds for the sizes that pass. -/
theorem identity_matrix_negative (result : Nat → MatrixXd) (K : Int) (h : K < 0) :
    identity_matrix result K = Except.error Error.domain_error := by
  unfold identity_matrix check_nonnegative_int
  have h0 : ¬ 0 ≤ K := by omega
  simp [h0]

/-- C26 at the value of the test: `identity_matrix(-1)` raises a domain error. -/
theorem identity_matrix_negative_witness :
    (-1 : Int) < 0 ∧
      identity_matrix (fun n => ⟨n, n, []⟩) (-1) = Except.error Error.domain_error :=
  ⟨by decide, identity_matrix_negative (fun n => ⟨n, n, []⟩) (-1) (by decide)⟩

end StanMath
